import Mathlib

/-!
Verification of the process-supervision library (src/src/command.ts, src/src/startCommand.ts
and its io/types/utils modules) against its natural-language specification.

The development shallowly embeds the code:
  * the IO abstraction (class StreamReader over a Node.js Readable) is embedded as pure
    state-passing functions over an explicit model of the Readable stream's internal
    buffer, pending chunks and event sequence;
  * the Cmd lifecycle (start / wait / signal / kill / output, spawn-failure diagnosis,
    exit accounting) is embedded as pure functions over an explicit Cmd state, with the
    outside world (the spawn primitive, the filesystem probes, signal delivery, and the
    relative timing of timers versus process exit) supplied as explicit oracle values.
Byte buffers are lists of naturals; machine integers do not overflow in any modelled
code path, so exit codes are plain Int.
-/

namespace NodeExec

/-! ## Model of a Node.js Readable stream (paused mode), as used by StreamReader.

The stream state holds the internal buffer (`buf`), the chunks the source will still
produce (`incoming`), whether the end of the source has been reached and signalled via a
readable event (`eofSignaled`), whether the end event has been emitted (`endEmitted`),
and whether the stream was destroyed. -/

abbrev Byte := Nat

structure RStream where
  buf : List Byte
  incoming : List (List Byte)
  eofSignaled : Bool
  endEmitted : Bool
  destroyed : Bool
deriving Repr, DecidableEq

/-- Node's readable property: false once the stream has ended or been destroyed. -/
def RStream.readable (s : RStream) : Bool :=
  !s.destroyed && !s.endEmitted

/-- Node's readable.read(size): returns size bytes if buffered; if the source has ended,
returns the remaining bytes; a read of 0 bytes, or of more bytes than are buffered on a
stream that has not ended, returns null. -/
def streamRead (s : RStream) (size : Nat) : Option (List Byte) × RStream :=
  if s.destroyed then (none, s)
  else
    let k := if s.eofSignaled && decide (s.buf.length < size) then s.buf.length else size
    if 0 < k ∧ k ≤ s.buf.length then
      (some (s.buf.take k), { s with buf := s.buf.drop k })
    else (none, s)

/-- Node's readable.read() with no size: returns the whole internal buffer, or null if it
is empty. -/
def streamReadAll (s : RStream) : Option (List Byte) × RStream :=
  if s.destroyed then (none, s)
  else if s.buf.isEmpty then (none, s)
  else (some s.buf, { s with buf := [] })

/-! ## StreamReader (src/src/io.ts, class StreamReader) -/

structure StreamReader where
  s : RStream
  /-- the private ended flag, set by the end listener installed in the constructor and
  by close() -/
  ended : Bool
deriving Repr, DecidableEq

/-- All bytes this reader can still observe: the stream's internal buffer followed by
every chunk the source will still produce. -/
def StreamReader.allBytes (r : StreamReader) : List Byte :=
  r.s.buf ++ r.s.incoming.flatten

/-- The event that resolves one `await new Promise(...)` in StreamReader.read's loop:
either the source delivers its next chunk (a readable event), or the source is exhausted
and readable fires once at end-of-file, or — with the buffer drained after end-of-file —
the end event fires.  The end listener installed in the StreamReader constructor sets
`ended` and destroys the stream. -/
def StreamReader.nextEvent (r : StreamReader) : StreamReader :=
  match r.s.incoming with
  | ch :: rest => { r with s := { r.s with buf := r.s.buf ++ ch, incoming := rest } }
  | [] =>
    if r.s.eofSignaled = false then
      { r with s := { r.s with eofSignaled := true } }
    else
      { ended := true, s := { r.s with endEmitted := true, destroyed := true } }

/-- StreamReader.close(): a no-op once ended or destroyed, otherwise destroys the stream
and marks the reader ended. -/
def StreamReader.close (r : StreamReader) : StreamReader :=
  if r.ended || r.s.destroyed then r
  else { ended := true, s := { r.s with destroyed := true } }

/-- Outcome of a read call: it either completes with bytes, or hangs forever (its awaited
promise is never resolved). -/
inductive ReadOut where
  | done (bytes : List Byte) (r : StreamReader)
  | hung (r : StreamReader)
deriving Repr, DecidableEq

def ReadOut.isHung : ReadOut → Bool
  | .done _ _ => false
  | .hung _ => true

/-- The `while (buffersLen < size && !this.ended)` loop of StreamReader.read.  Each
iteration awaits one stream event; `delivers` is the number of events the environment
will still deliver before a concurrent close() destroys the stream — once close()
intervenes, none of the awaited events (error, end, readable) ever fires, so the read
hangs.  A run that finishes within the budget never observes the close. -/
def StreamReader.readLoop (r : StreamReader) (size : Nat) (buffers : List (List Byte))
    (buffersLen : Nat) (delivers : Nat) : ReadOut :=
  if buffersLen < size ∧ r.ended = false then
    match delivers with
    | 0 => .hung r.close
    | d + 1 =>
      let r1 := r.nextEvent
      -- read no more than what we need
      let p1 := streamRead r1.s (size - buffersLen)
      -- if that fails, retrieve whatever is in the buffer
      let p2 := match p1.1 with
        | some b => (some b, p1.2)
        | none => streamReadAll p1.2
      match p2 with
      | (some b, s2) =>
        StreamReader.readLoop { r1 with s := s2 } size (buffers ++ [b])
          (buffersLen + b.length) d
      | (none, s2) =>
        StreamReader.readLoop { r1 with s := s2 } size buffers buffersLen d
  else .done buffers.flatten r

/-- StreamReader.read(size): the size-bounded/to-exhaustion read (byte level; the
encoding overloads decode the same bytes and are not modelled). -/
def StreamReader.read (r : StreamReader) (size : Nat) (delivers : Nat) : ReadOut :=
  if r.ended then
    -- trying to read available data; the stream ended, nothing else to read
    if r.s.readable then
      match streamRead r.s size with
      | (some b, s1) => .done b { r with s := s1 }
      | (none, s1) => .done [] { r with s := s1 }
    else .done [] r
  else
    -- read what is in the buffer, then loop until satisfied or ended
    let p0 := if r.s.readable then streamRead r.s size else (none, r.s)
    match p0 with
    | (some b, s0) => StreamReader.readLoop { r with s := s0 } size [b] b.length delivers
    | (none, s0) => StreamReader.readLoop { r with s := s0 } size [] 0 delivers

/-- Number.MAX_SAFE_INTEGER, the default when read is called with no size argument. -/
def maxSafeInteger : Nat := 9007199254740991

/-- The argument normalization of StreamReader.read: a non-negative numeric argument is
the size, anything else (no argument, or a negative number, or an encoding string)
leaves the size at Number.MAX_SAFE_INTEGER. -/
def StreamReader.readJS (r : StreamReader) (sizeArg : Option Int) (delivers : Nat) :
    ReadOut :=
  match sizeArg with
  | some k => if 0 ≤ k then r.read k.toNat delivers else r.read maxSafeInteger delivers
  | none => r.read maxSafeInteger delivers

/-- Well-formed reader state: not ended, stream alive, and the end-of-file readable
event only ever fires after the source has no more chunks to deliver. -/
def StreamReader.wf (r : StreamReader) : Prop :=
  r.ended = false ∧ r.s.destroyed = false ∧ r.s.endEmitted = false ∧
    (r.s.eofSignaled = true → r.s.incoming = [])


/-! ## Model of the Cmd lifecycle (src/src/command.ts, with types.ts and utils.ts)

The outside world is supplied through explicit oracle values: whether the spawn call
assigned a pid, the filesystem answers used by guessSpawnError, whether signal delivery
succeeded, and the relative timing of timers versus process exit. -/

/-- NOT_STARTED_ERROR of src/src/types.ts. -/
def NOT_STARTED_ERROR : String := "process not started"

inductive SignalMode where
  | standard
  | group
deriving Repr, DecidableEq

/-- Errors raised by the library: a plain Error(message), the spawn-failure Error that
also carries a best-effort errno code, and the Timeout error created by createTimeout
(name Timeout; wait rewrites its message before rejecting). -/
inductive CmdError where
  | error (message : String)
  | spawnError (code : String) (message : String)
  | timeoutError (message : String)
deriving Repr, DecidableEq

/-- The Completion Future: a single-resolution promise.  The generation counter
distinguishes the fresh future allocated by each start() from earlier ones. -/
inductive PromiseSt where
  | pending (gen : Nat)
  | resolved (gen : Nat) (code : Int)
  | rejected (gen : Nat) (err : CmdError)
deriving Repr, DecidableEq

def PromiseSt.gen : PromiseSt → Nat
  | .pending g => g
  | .resolved g _ => g
  | .rejected g _ => g

/-- First resolution wins: settling a pending promise; a no-op on a settled one. -/
def PromiseSt.resolve (p : PromiseSt) (v : Int) : PromiseSt :=
  match p with
  | .pending g => .resolved g v
  | _ => p

def PromiseSt.reject (p : PromiseSt) (e : CmdError) : PromiseSt :=
  match p with
  | .pending g => .rejected g e
  | _ => p

/-- Cmd.shell: false, true, or an explicit shell program. -/
inductive ShellMode where
  | off
  | on
  | prog (sh : String)
deriving Repr, DecidableEq

/-- Cmd.stdin: null, inherit, pipe, an in-memory Buffer, a Reader (whose underlying
stream either has a string fd — a socket child_process handles directly — or not, in
which case the library pumps it into the child), or a plain Readable stream. -/
inductive StdinCfg where
  | null
  | inherit
  | pipe
  | buffer (data : List Byte)
  | reader (fdIsString : Bool)
  | stream
deriving Repr, DecidableEq

/-- Cmd.stdout / Cmd.stderr: null, inherit, pipe, the parent process stdout/stderr
(attached by file-descriptor number), or another Writable stream. -/
inductive OutCfg where
  | null
  | inherit
  | pipe
  | parentStd
  | stream
deriving Repr, DecidableEq

/-- One entry of Cmd.extraFiles: null, pipe, or a Readable stream. -/
inductive ExtraCfg where
  | null
  | pipe
  | stream
deriving Repr, DecidableEq

structure Cmd where
  command : String
  args : List String
  dir : String
  shell : ShellMode
  stdin : StdinCfg
  stdout : OutCfg
  stderr : OutCfg
  extraFiles : List ExtraCfg
  /-- process != null (the handle has been started at least once and spawn assigned a
  pid) -/
  processSet : Bool
  running : Bool
  pid : Nat
  exitCode : Int
  promise : PromiseSt
  /-- bookkeeping for the model: the generation the next allocated promise will get -/
  nextGen : Nat
deriving Repr, DecidableEq

/-- new Cmd(command, ...args): the promise is a pre-failed placeholder rejecting with
the not-started error (with its rejection observed so it cannot become an uncaught
rejection); exit code -1; nothing running. -/
def Cmd.mk0 (command : String) (args : List String) : Cmd :=
  { command := command, args := args, dir := "", shell := .off, stdin := .null,
    stdout := .null, stderr := .null, extraFiles := [],
    processSet := false, running := false, pid := 0, exitCode := -1,
    promise := .rejected 0 (.error NOT_STARTED_ERROR), nextGen := 1 }

/-- The libuv error-code → message table of src/src/utils.ts. -/
def libuvErrors : List (String × String) :=
  [("E2BIG", "argument list too long"), ("EACCES", "permission denied"),
   ("EADDRINUSE", "address already in use"), ("EADDRNOTAVAIL", "address not available"),
   ("EAFNOSUPPORT", "address family not supported"),
   ("EAGAIN", "resource temporarily unavailable"),
   ("EAI_ADDRFAMILY", "address family not supported"), ("EAI_AGAIN", "temporary failure"),
   ("EAI_BADFLAGS", "bad ai_flags value"), ("EAI_BADHINTS", "invalid value for hints"),
   ("EAI_CANCELED", "request canceled"), ("EAI_FAIL", "permanent failure"),
   ("EAI_FAMILY", "ai_family not supported"), ("EAI_MEMORY", "out of memory"),
   ("EAI_NODATA", "no address"), ("EAI_NONAME", "unknown node or service"),
   ("EAI_OVERFLOW", "argument buffer overflow"),
   ("EAI_PROTOCOL", "resolved protocol is unknown"),
   ("EAI_SERVICE", "service not available for socket type"),
   ("EAI_SOCKTYPE", "socket type not supported"),
   ("EALREADY", "connection already in progress"), ("EBADF", "bad file descriptor"),
   ("EBUSY", "resource busy or locked"), ("ECANCELED", "operation canceled"),
   ("ECHARSET", "invalid Unicode character"),
   ("ECONNABORTED", "software caused connection abort"),
   ("ECONNREFUSED", "connection refused"), ("ECONNRESET", "connection reset by peer"),
   ("EDESTADDRREQ", "destination address required"), ("EEXIST", "file already exists"),
   ("EFAULT", "bad address in system call argument"), ("EFBIG", "file too large"),
   ("EHOSTUNREACH", "host is unreachable"), ("EINTR", "interrupted system call"),
   ("EINVAL", "invalid argument"), ("EIO", "i/o error"),
   ("EISCONN", "socket is already connected"),
   ("EISDIR", "illegal operation on a directory"),
   ("ELOOP", "too many symbolic links encountered"), ("EMFILE", "too many open files"),
   ("EMSGSIZE", "message too long"), ("ENAMETOOLONG", "name too long"),
   ("ENETDOWN", "network is down"), ("ENETUNREACH", "network is unreachable"),
   ("ENFILE", "file table overflow"), ("ENOBUFS", "no buffer space available"),
   ("ENODEV", "no such device"), ("ENOENT", "no such file or directory"),
   ("ENOMEM", "not enough memory"), ("ENONET", "machine is not on the network"),
   ("ENOPROTOOPT", "protocol not available"), ("ENOSPC", "no space left on device"),
   ("ENOSYS", "function not implemented"), ("ENOTCONN", "socket is not connected"),
   ("ENOTDIR", "not a directory"), ("ENOTEMPTY", "directory not empty"),
   ("ENOTSOCK", "socket operation on non-socket"),
   ("ENOTSUP", "operation not supported on socket"),
   ("EPERM", "operation not permitted"), ("EPIPE", "broken pipe"),
   ("EPROTO", "protocol error"), ("EPROTONOSUPPORT", "protocol not supported"),
   ("EPROTOTYPE", "protocol wrong type for socket"), ("ERANGE", "result too large"),
   ("EROFS", "read-only file system"),
   ("ESHUTDOWN", "cannot send after transport endpoint shutdown"),
   ("ESPIPE", "invalid seek"), ("ESRCH", "no such process"),
   ("ETIMEDOUT", "connection timed out"), ("ETXTBSY", "text file is busy"),
   ("EXDEV", "cross-device link not permitted"), ("UNKNOWN", "unknown error"),
   ("EOF", "end of file"), ("ENXIO", "no such device or address"),
   ("EMLINK", "too many links"), ("ENOTTY", "inappropriate ioctl for device"),
   ("EFTYPE", "inappropriate file type or format"), ("EILSEQ", "illegal byte sequence")]

/-- errorCodeMsg of src/src/utils.ts: the message for a code, or the empty string. -/
def errorCodeMsg (errorCode : String) : String :=
  match libuvErrors.find? (fun p => p.1 = errorCode) with
  | some p => p.2
  | none => ""

/-- JavaScript (err.code || 'ENOENT') where err.code may be absent or empty. -/
def codeOrENOENT : Option String → String
  | some c => if c = "" then "ENOENT" else c
  | none => "ENOENT"

/-- fs.constants.S_IFREG. -/
def S_IFREG : Nat := 32768

/-- JavaScript (v || dflt) on an optional integer (null and 0 are falsy). -/
def jsOrInt (v : Option Int) (dflt : Int) : Int :=
  match v with
  | some n => if n = 0 then dflt else n
  | none => dflt

/-- JavaScript (v || dflt) on an optional natural (undefined and 0 are falsy). -/
def jsOrNat (v : Option Nat) (dflt : Nat) : Nat :=
  match v with
  | some n => if n = 0 then dflt else n
  | none => dflt

/-- Answers of the synchronous filesystem probes used by guessSpawnError; a thrown
error carries an optional errno code (err.code may be absent). -/
structure FsOracle where
  /-- fs.accessSync(cmd.dir, R_OK | X_OK) -/
  accessDir : Except (Option String) Unit
  /-- fs.statSync(cmd.command): st.mode on success -/
  statCommand : Except (Option String) Nat
deriving Repr

/-! guessSpawnError (src/src/command.ts) guesstimates the spawn error by probing the
command file (non-shell mode) and the working directory, producing an errno-style code
and a message via the libuv table.  The staged mutation of the code and msg locals in
the source is modelled by the guessCode1/guessMsg1/guessSecond stages below. -/

/-- The code after the first probe block (runs only with shell == false): access the
working directory, stat the command; a non-regular file is EACCES, a regular one EIO,
and a probe exception contributes its own code (ENOENT when absent). -/
def guessCode1 (cmd : Cmd) (fs : FsOracle) : String :=
  if cmd.shell = ShellMode.off then
    match fs.accessDir with
    | .ok _ =>
      match fs.statCommand with
      | .ok mode => if mode &&& S_IFREG = 0 then "EACCES" else "EIO"
      | .error c => codeOrENOENT c
    | .error c => codeOrENOENT c
  else ""

/-- The message after the first probe block (errorCodeMsg(code) || msg). -/
def guessMsg1 (cmd : Cmd) (fs : FsOracle) : String :=
  if cmd.shell = ShellMode.off then
    if errorCodeMsg (guessCode1 cmd fs) = "" then "unspecified error"
    else errorCodeMsg (guessCode1 cmd fs)
  else "unspecified error"

/-- The second probe block (runs only when no code was determined yet): check the
working directory alone, appending it to the message. -/
def guessSecond (cmd : Cmd) (fs : FsOracle) : String × String :=
  if guessCode1 cmd fs = "" then
    let c :=
      match fs.accessDir with
      | .ok _ => "EIO"
      | .error ec => codeOrENOENT ec
    let m := if errorCodeMsg c = "" then guessMsg1 cmd fs else errorCodeMsg c
    (c, if c ≠ "" then m ++ "; cmd.dir=" ++ cmd.dir else m)
  else (guessCode1 cmd fs, guessMsg1 cmd fs)

def guessSpawnError (cmd : Cmd) (fs : FsOracle) : CmdError :=
  let second := guessSecond cmd fs
  let code := if second.1 = "" then "UNKNOWN" else second.1
  .spawnError code
    ("failed to spawn process " ++ cmd.command ++ " (" ++ code ++ " " ++ second.2 ++ ")")

/-- What start() passes to the platform spawn call for one descriptor. -/
inductive SpawnIo where
  | ignore
  | inherit
  | pipe
  | stream
  | fd
deriving Repr, DecidableEq

/-- The stdin normalization at the top of start(): a Buffer spawns a pipe (fed by a
PassThrough); a Reader whose stream has a string fd is attached directly, any other
Reader spawns a pipe that the library pumps (second component true); null becomes
ignore via (stdin || 'ignore'). -/
def stdinSpawnCfg : StdinCfg → SpawnIo × Bool
  | .null => (.ignore, false)
  | .inherit => (.inherit, false)
  | .pipe => (.pipe, false)
  | .buffer _ => (.pipe, false)
  | .reader true => (.stream, false)
  | .reader false => (.pipe, true)
  | .stream => (.stream, false)

/-- stdout/stderr translation: process.stdout and process.stderr are attached by fd
number; null becomes ignore; anything else passes through. -/
def outSpawnCfg : OutCfg → SpawnIo
  | .null => .ignore
  | .inherit => .inherit
  | .pipe => .pipe
  | .parentStd => .fd
  | .stream => .stream

/-- extraFiles entries are spread into the stdio array as given (null on fd 3+ means
ignore). -/
def extraSpawnCfg : ExtraCfg → SpawnIo
  | .null => .ignore
  | .pipe => .pipe
  | .stream => .stream

inductive PipeEnd where
  | writer
  | reader
deriving Repr, DecidableEq

/-- The Pipe Bundle returned by start(): the caller ends of whatever was piped. -/
structure Pipes where
  stdin : Option PipeEnd
  stdout : Option PipeEnd
  stderr : Option PipeEnd
  extraFiles : List (Option PipeEnd)
deriving Repr, DecidableEq

/-- Environment of one start() call: whether the platform spawn assigned a pid, which
pid, and the filesystem answers for the failure diagnosis. -/
structure SpawnEnv where
  spawnOk : Bool
  pidVal : Nat
  fs : FsOracle
deriving Repr

/-- Whether this stdin configuration is an in-memory Buffer. -/
def StdinCfg.isBuffer : StdinCfg → Bool
  | .buffer _ => true
  | _ => false

/-- Cmd.start(): throws AlreadyRunning while running; resets the exit code; allocates a
fresh Completion Future; normalizes stdin; spawns.  When no pid was assigned it
synthesizes the spawn error, rejects the fresh future with it and throws it.  On
success it records pid and Running, nulls out the child stdin it pumps itself
(buffer/pumped-reader modes), and returns null if no stdio pipes remain, else the
Pipe Bundle. -/
def Cmd.start (c : Cmd) (env : SpawnEnv) : Cmd × Except CmdError (Option Pipes) :=
  if c.running then
    (c, .error (.error "start() called while command is running"))
  else
    let c1 := { c with exitCode := -1, promise := PromiseSt.pending c.nextGen,
                       nextGen := c.nextGen + 1 }
    let stdinCfg := stdinSpawnCfg c.stdin
    if env.spawnOk = false then
      let c2 := { c1 with processSet := false, pid := 0 }
      let err := guessSpawnError c2 env.fs
      ({ c2 with promise := c2.promise.reject err }, .error err)
    else
      let c2 := { c1 with running := true, processSet := true, pid := env.pidVal }
      -- p.stdin exists iff fd 0 was spawned as a pipe, and is nulled out when the
      -- library pumps a Buffer or a Reader stream into it itself
      let pStdin := stdinCfg.1 = SpawnIo.pipe ∧ c.stdin.isBuffer = false ∧
        stdinCfg.2 = false
      let pStdout := outSpawnCfg c.stdout = SpawnIo.pipe
      let pStderr := outSpawnCfg c.stderr = SpawnIo.pipe
      if ¬pStdin ∧ ¬pStdout ∧ ¬pStderr ∧ 3 + c.extraFiles.length < 4 then
        (c2, .ok none)
      else
        (c2, .ok (some
          { stdin := if pStdin then some PipeEnd.writer else none,
            stdout := if pStdout then some PipeEnd.reader else none,
            stderr := if pStderr then some PipeEnd.reader else none,
            extraFiles := c.extraFiles.map (fun e =>
              if e = ExtraCfg.pipe then some PipeEnd.reader else none) }))

/-- Cmd._onexit(code, signal): if the platform reported a signal name (or no numeric
code), record the negated signal number (unknown names negate the || 1 default);
otherwise record code || 0; then resolve the Completion Future with the recorded value.
The signals argument is the os.constants.signals table.  The assert that signal is a
string is modelled as an error result. -/
def Cmd.onexit (c : Cmd) (signals : String → Option Nat) (code : Option Int)
    (signal : Option String) : Except String Cmd :=
  if code = none ∨ signal ≠ none then
    match signal with
    | some s =>
      let ec : Int := -((jsOrNat (signals s) 1 : Nat) : Int)
      .ok { c with running := false, exitCode := ec, promise := c.promise.resolve ec }
    | none => .error "assertion failed: typeof signal == string"
  else
    match code with
    | some cd =>
      let ec : Int := jsOrInt (some cd) 0
      .ok { c with running := false, exitCode := ec, promise := c.promise.resolve ec }
    | none => .error "unreachable: code = none is handled by the first branch"

/-- A recorded signal attempt: its target (the process group, signalled through the
negated pid, or the process itself) and the signal name. -/
inductive SigTarget where
  | group (pid : Nat)
  | proc (pid : Nat)
deriving Repr, DecidableEq

structure SigEvent where
  target : SigTarget
  sig : String
deriving Repr, DecidableEq

/-- Platform answers for one signal call: whether process.kill(-pid, sig) succeeds and
what p.kill(sig) returns (false when the process is already gone). -/
structure SignalEnv where
  groupKillOk : Bool
  procKillOk : Bool
deriving Repr, DecidableEq

/-- Cmd.signal(sig, mode): throws when never started; in group mode try the process
group first (negated pid, pid || 1) and fall through to the process on failure; plain
delivery otherwise.  Returns whether delivery was accepted, plus the trace of
attempts. -/
def Cmd.signal (c : Cmd) (sig : String) (mode : Option SignalMode) (env : SignalEnv) :
    Except CmdError Bool × List SigEvent :=
  if c.processSet = false then
    (.error (.error NOT_STARTED_ERROR), [])
  else if mode = some SignalMode.group then
    if env.groupKillOk then
      (.ok true, [⟨.group (jsOrNat (some c.pid) 1), sig⟩])
    else
      (.ok env.procKillOk,
        [⟨.group (jsOrNat (some c.pid) 1), sig⟩, ⟨.proc c.pid, sig⟩])
  else
    (.ok env.procKillOk, [⟨.proc c.pid, sig⟩])

/-- Timing environment of one kill call: whether the Completion Future settles before
the escalation timer fires, the value it (eventually) settles with (none = the process
never exits), and the ChildProcess exitCode property at call time. -/
structure KillEnv where
  exitBeforeKillTimer : Bool
  promiseCode : Option Int
  procExitCode : Option Int
deriving Repr, DecidableEq

/-- How a kill call settles: with an immediate value, or with whatever the Completion
Future settles with (if it ever does). -/
inductive KVal where
  | value (v : Int)
  | fromPromise
deriving Repr, DecidableEq

def runKVal (kv : KVal) (promiseCode : Option Int) : Option Int :=
  match kv with
  | .value v => some v
  | .fromPromise => promiseCode

/-- Cmd.kill(sig = SIGTERM, timeout = 500, mode): checkproc, then send sig via signal
with mode || group; if delivery was rejected return p.exitCode || 0 immediately; if
timeout <= 0 return the Completion Future itself; otherwise race it against the timer
and, if the timer fires first, send exactly one SIGKILL directly to the process and
settle with the Completion Future. -/
def Cmd.kill (c : Cmd) (sig : String) (timeout : Int) (mode : Option SignalMode)
    (sigEnv : SignalEnv) (kEnv : KillEnv) : Except CmdError KVal × List SigEvent :=
  if c.processSet = false then
    (.error (.error NOT_STARTED_ERROR), [])
  else
    let sres := c.signal sig (some (mode.getD SignalMode.group)) sigEnv
    match sres.1 with
    | .error e => (.error e, sres.2)
    | .ok ok =>
      if ok = false then
        (.ok (.value (jsOrInt kEnv.procExitCode 0)), sres.2)
      else if timeout ≤ 0 then
        (.ok .fromPromise, sres.2)
      else if kEnv.exitBeforeKillTimer then
        (.ok .fromPromise, sres.2)
      else
        (.ok .fromPromise, sres.2 ++ [⟨.proc c.pid, "SIGKILL"⟩])

/-- Timing environment of one wait call: whether — and with which code — the Completion
Future settles before the wait timer fires. -/
structure WaitEnv where
  exitBeforeTimer : Option Int
deriving Repr, DecidableEq

/-- How a wait call settles: resolved with an exit code, rejected with an error, or
never (pending forever). -/
inductive WVal where
  | value (v : Int)
  | rejectedErr (e : CmdError)
  | pending
deriving Repr, DecidableEq

/-- Reading this.promise as the result of a wait call. -/
def promiseToWVal (p : PromiseSt) : WVal :=
  match p with
  | .pending _ => .pending
  | .resolved _ v => .value v
  | .rejected _ e => .rejectedErr e

/-- Cmd.wait(timeout?, timeoutSignal?): with no positive timeout, return this.promise.
Otherwise race it against the timer (createTimeout clears the timer once the promise
settles); if the promise settles first resolve with its code; if the timer fires first
set timeoutOccured — so the natural resolution is discarded — run
kill(timeoutSignal) (defaults: SIGTERM, 500 ms, group mode) and only then reject with
the Timeout error whose message was set to Cmd.wait timeout; if the kill never
completes, the outer promise stays pending. -/
def Cmd.wait (c : Cmd) (timeout : Option Int) (timeoutSignal : Option String)
    (wEnv : WaitEnv) (sigEnv : SignalEnv) (kEnv : KillEnv) : WVal × List SigEvent :=
  match timeout with
  | none => (promiseToWVal c.promise, [])
  | some t =>
    if t ≤ 0 then (promiseToWVal c.promise, [])
    else
      match wEnv.exitBeforeTimer with
      | some code => (.value code, [])
      | none =>
        let kres := c.kill (timeoutSignal.getD "SIGTERM") 500 none sigEnv kEnv
        match kres.1 with
        | .ok kv =>
          match runKVal kv kEnv.promiseCode with
          | some _ => (.rejectedErr (.timeoutError "Cmd.wait timeout"), kres.2)
          | none => (.pending, kres.2)
        | .error _ => (.pending, kres.2)

/-- In-memory accumulating sink (class DataBuffer of src/src/io.ts). -/
structure DataBuffer where
  data : List (List Byte)
  offset : Nat
deriving Repr, DecidableEq

def DataBuffer.write (b : DataBuffer) (chunk : List Byte) : DataBuffer :=
  { data := b.data ++ [chunk], offset := b.offset + chunk.length }

def DataBuffer.buffer (b : DataBuffer) : List Byte :=
  b.data.flatten

def createDataBuffer : DataBuffer := ⟨[], 0⟩

/-- The bytes of an ASCII string; used to state error messages at the byte level. -/
def strBytes (s : String) : List Byte := s.toList.map Char.toNat

/-- What output() resolves with: raw captured bytes, or the same bytes decoded to text
because an encoding was requested. -/
inductive OutVal where
  | bytes (b : List Byte)
  | text (b : List Byte)
deriving Repr, DecidableEq

/-- Overall result of output(): the synchronous start() failure propagated, the
non-zero-exit Error (message at byte level), or the captured stdout. -/
inductive OutputRes where
  | startFailed (e : CmdError)
  | failed (message : List Byte)
  | ok (v : OutVal)
deriving Repr, DecidableEq

/-- Cmd.output(encoding?, timeout?): force stdout — and, if unset, stderr — to pipes;
start; accumulate each piped stream into a DataBuffer as chunks arrive; wait; on a
non-zero exit code throw the Error whose message embeds the code and, when non-empty,
the captured stderr; otherwise resolve with the captured stdout, decoded if an encoding
was requested.  The chunks each stream delivers and the exit code the wait resolves
with come from the environment. -/
def Cmd.output (c : Cmd) (env : SpawnEnv) (encoding : Option String)
    (stdoutChunks stderrChunks : List (List Byte)) (exitCode : Int) : Cmd × OutputRes :=
  let c1 := { c with stdout := OutCfg.pipe,
                     stderr := if c.stderr = OutCfg.null then OutCfg.pipe else c.stderr }
  match c1.start env with
  | (c2, .error e) => (c2, .startFailed e)
  | (c2, .ok pipesOpt) =>
    let stdoutBuf := stdoutChunks.foldl DataBuffer.write createDataBuffer
    let stderrPiped :=
      match pipesOpt with
      | some p => p.stderr.isSome
      | none => false
    let stderrBuf :=
      if stderrPiped then stderrChunks.foldl DataBuffer.write createDataBuffer
      else createDataBuffer
    if exitCode ≠ 0 then
      let errbuf := stderrBuf.buffer
      let errstr :=
        if errbuf.length > 0 then strBytes "stderr output:\n" ++ errbuf else []
      (c2, .failed (strBytes "command exited with status " ++
        strBytes (toString exitCode) ++ errstr))
    else
      (c2, .ok (match encoding with
        | some _ => .text stdoutBuf.buffer
        | none => .bytes stdoutBuf.buffer))

/-! Concrete fixtures used by witnesses and counterexamples of the Cmd claims. -/

def fsOkW : FsOracle := ⟨.ok (), .ok 33188⟩

def envOkW : SpawnEnv := ⟨true, 42, fsOkW⟩

def envFailW : SpawnEnv := ⟨false, 0, ⟨.error (some "EACCES"), .ok 33188⟩⟩

def fsNotdirW : FsOracle := ⟨.ok (), .error (some "ENOTDIR")⟩

/-- A handle that has been started and is running (pid 42, fresh pending future). -/
def startedW : Cmd :=
  { (Cmd.mk0 "sleep" ["9"]) with
    running := true
    processSet := true
    pid := 42
    promise := PromiseSt.pending 1
    nextGen := 2 }

/-- startedW after its process exited with code 5. -/
def exitedW : Cmd :=
  { startedW with running := false, exitCode := 5, promise := PromiseSt.resolved 1 5 }

/-- A small os.constants.signals table. -/
def sigTblW : String → Option Nat := fun s =>
  if s = "SIGKILL" then some 9 else if s = "SIGTERM" then some 15 else none

/-! Concrete reader states used by witnesses and counterexamples. -/

def c2w : StreamReader :=
  ⟨⟨[], [[1, 2], [3, 4, 5]], false, false, false⟩, false⟩

def c8r : StreamReader :=
  ⟨⟨[], [[7, 7, 7]], false, false, false⟩, false⟩

def c8w : StreamReader :=
  ⟨⟨[5], [[6]], false, false, false⟩, false⟩

/-! ## Lemmas about StreamReader.read -/

theorem StreamReader.readLoop_exit (r : StreamReader) (size : Nat)
    (buffers : List (List Byte)) (buffersLen d : Nat)
    (h : ¬(buffersLen < size ∧ r.ended = false)) :
    r.readLoop size buffers buffersLen d = .done buffers.flatten r := by
  cases d <;> (rw [StreamReader.readLoop]; rw [if_neg h])

theorem StreamReader.readLoop_step (r : StreamReader) (size : Nat)
    (buffers : List (List Byte)) (buffersLen d : Nat)
    (h : buffersLen < size ∧ r.ended = false) :
    r.readLoop size buffers buffersLen (d + 1) =
      (match (match (streamRead r.nextEvent.s (size - buffersLen)).1 with
              | some b => (some b, (streamRead r.nextEvent.s (size - buffersLen)).2)
              | none => streamReadAll (streamRead r.nextEvent.s (size - buffersLen)).2) with
       | (some b, s2) =>
         StreamReader.readLoop { r.nextEvent with s := s2 } size (buffers ++ [b])
           (buffersLen + b.length) d
       | (none, s2) =>
         StreamReader.readLoop { r.nextEvent with s := s2 } size buffers buffersLen d) := by
  rw [StreamReader.readLoop]
  rw [if_pos h]

/-! Evaluation lemmas for the stream primitives. -/

theorem streamRead_enough (s : RStream) (k : Nat) (hd : s.destroyed = false)
    (hk : 0 < k) (hlen : k ≤ s.buf.length) :
    streamRead s k = (some (s.buf.take k), { s with buf := s.buf.drop k }) := by
  have heq : (if s.eofSignaled && decide (s.buf.length < k) then s.buf.length else k) = k := by
    cases hE : s.eofSignaled <;> simp <;> omega
  unfold streamRead
  rw [if_neg (by simp [hd])]
  simp only []
  rw [heq, if_pos ⟨hk, hlen⟩]

theorem streamRead_eof_short (s : RStream) (k : Nat) (hd : s.destroyed = false)
    (he : s.eofSignaled = true) (hlen : s.buf.length < k) (hne : s.buf ≠ []) :
    streamRead s k = (some s.buf, { s with buf := [] }) := by
  have heq : (if s.eofSignaled && decide (s.buf.length < k) then s.buf.length else k) =
      s.buf.length := by simp [he, hlen]
  unfold streamRead
  rw [if_neg (by simp [hd])]
  simp only []
  rw [heq, if_pos ⟨by cases hb : s.buf <;> simp [hb] at hne ⊢, le_refl _⟩]
  rw [List.take_length, List.drop_length]

theorem streamRead_none_short (s : RStream) (k : Nat) (hd : s.destroyed = false)
    (he : s.eofSignaled = false) (hlen : s.buf.length < k) :
    streamRead s k = (none, s) := by
  have heq : (if s.eofSignaled && decide (s.buf.length < k) then s.buf.length else k) = k := by
    simp [he]
  unfold streamRead
  rw [if_neg (by simp [hd])]
  simp only []
  rw [heq, if_neg (by omega)]

theorem streamRead_zero (s : RStream) (k : Nat) (hd : s.destroyed = false)
    (hb : s.buf = []) (hk0 : s.eofSignaled = true ∨ k = 0) :
    streamRead s k = (none, s) := by
  have heq : (if s.eofSignaled && decide (s.buf.length < k) then s.buf.length else k) = 0 ∨
      (if s.eofSignaled && decide (s.buf.length < k) then s.buf.length else k) = k := by
    cases hE : s.eofSignaled <;> simp [hb] <;> omega
  unfold streamRead
  rw [if_neg (by simp [hd])]
  simp only []
  rcases heq with heq | heq <;> rw [heq]
  · rw [if_neg (by omega)]
  · rw [if_neg (by rw [hb]; simp; omega)]

theorem streamRead_destroyed (s : RStream) (k : Nat) (hd : s.destroyed = true) :
    streamRead s k = (none, s) := by
  unfold streamRead
  rw [if_pos hd]

theorem streamReadAll_destroyed (s : RStream) (hd : s.destroyed = true) :
    streamReadAll s = (none, s) := by
  unfold streamReadAll
  rw [if_pos hd]

theorem streamReadAll_empty (s : RStream) (hb : s.buf = []) :
    streamReadAll s = (none, s) := by
  unfold streamReadAll
  rcases hD : s.destroyed with _ | _
  · rw [if_neg (by simp [hD]), if_pos (by simp [hb])]
  · simp

theorem streamReadAll_some (s : RStream) (hd : s.destroyed = false) (hb : s.buf ≠ []) :
    streamReadAll s = (some s.buf, { s with buf := [] }) := by
  unfold streamReadAll
  rw [if_neg (by simp [hd]), if_neg (by simp [hb])]

/-- Behaviour of the read loop under a sufficient event budget: it returns the buffers
accumulated so far followed by exactly the still-needed prefix of the remaining bytes,
leaves the rest buffered, and reaches the ended/destroyed state exactly when the source
ran out of bytes before the requested size was reached. -/
theorem StreamReader.readLoop_spec :
    ∀ (d : Nat) (r : StreamReader) (size buffersLen : Nat) (buffers : List (List Byte)),
    r.ended = false → r.s.destroyed = false → r.s.endEmitted = false →
    (r.s.eofSignaled = true → r.s.incoming = []) →
    (r.s.eofSignaled = true → buffersLen < size → r.s.buf = []) →
    (buffersLen < size → r.s.buf.length < size - buffersLen) →
    r.s.incoming.length + (if r.s.eofSignaled then 0 else 1) + 1 ≤ d →
    ∃ r₂, r.readLoop size buffers buffersLen d =
        .done (buffers.flatten ++ r.allBytes.take (size - buffersLen)) r₂
      ∧ r₂.allBytes = r.allBytes.drop (size - buffersLen)
      ∧ (size - buffersLen ≤ r.allBytes.length →
          r₂.ended = false ∧ r₂.s.destroyed = false ∧ r₂.s.endEmitted = false ∧
            (r₂.s.eofSignaled = true → r₂.s.incoming = []))
      ∧ (r.allBytes.length < size - buffersLen → r₂.ended = true ∧ r₂.s.destroyed = true) := by
  intro d
  induction d with
  | zero =>
    intro r size buffersLen buffers _ _ _ _ _ _ hbudget
    exact absurd hbudget (by omega)
  | succ d ih =>
    intro r size buffersLen buffers h1 h2 h3 h4 h5 h6 hbudget
    by_cases hlt : buffersLen < size
    swap
    · refine ⟨r, ?_, ?_, fun _ => ⟨h1, h2, h3, h4⟩, fun h => absurd h (by omega)⟩
      · rw [StreamReader.readLoop_exit _ _ _ _ _ (by tauto),
          show size - buffersLen = 0 from by omega]
        simp
      · rw [show size - buffersLen = 0 from by omega]
        simp
    · obtain ⟨⟨buf, incoming, eof, endE, dst⟩, ended⟩ := r
      simp only at h1 h2 h3 h4 h5 h6 hbudget
      subst h1 h2 h3
      rw [StreamReader.readLoop_step _ _ _ _ _ ⟨hlt, rfl⟩]
      have hwantpos : 0 < size - buffersLen := by omega
      cases incoming with
      | cons ch rest =>
        have heof : eof = false := by
          cases eof
          · rfl
          · simpa using h4 rfl
        subst heof
        simp only [StreamReader.nextEvent]
        by_cases hbc : size - buffersLen ≤ buf.length + ch.length
        · -- the chunk that arrived (plus what was buffered) satisfies the request
          rw [streamRead_enough ⟨buf ++ ch, rest, false, false, false⟩ (size - buffersLen) rfl
            hwantpos (by simp <;> omega)]
          simp only []
          obtain ⟨r₂, he, hab, hwf, hdead⟩ :=
            ih ⟨⟨(buf ++ ch).drop (size - buffersLen), rest, false, false, false⟩, false⟩ size
              (buffersLen + ((buf ++ ch).take (size - buffersLen)).length)
              (buffers ++ [(buf ++ ch).take (size - buffersLen)])
              rfl rfl rfl (by simp) (by simp)
              (by simp [List.length_take] <;> omega) (by simp at hbudget ⊢ <;> omega)
          have hz : size - (buffersLen + ((buf ++ ch).take (size - buffersLen)).length) = 0 := by
            simp [List.length_take]
            omega
          rw [hz] at he hab hwf
          rw [he]
          have h0 : size - buffersLen - buf.length - ch.length = 0 := by omega
          refine ⟨r₂, ?_, ?_, fun _ => hwf (by simp), fun h => ?_⟩
          · simp [StreamReader.allBytes, List.take_append_eq_append_take, h0]
          · rw [hab]
            simp [StreamReader.allBytes, List.drop_append_eq_append_drop, h0]
          · exfalso
            simp only [StreamReader.allBytes, List.flatten_cons, List.length_append] at h
            omega
        · -- not enough even with the new chunk: take everything buffered and continue
          rw [streamRead_none_short ⟨buf ++ ch, rest, false, false, false⟩ (size - buffersLen) rfl
            rfl (by simp <;> omega)]
          simp only []
          by_cases hempty : buf ++ ch = []
          · rw [streamReadAll_empty ⟨buf ++ ch, rest, false, false, false⟩ hempty]
            simp only []
            obtain ⟨hbuf, hch⟩ := List.append_eq_nil.mp hempty
            subst hbuf
            subst hch
            obtain ⟨r₂, he, hab, hwf, hdead⟩ :=
              ih ⟨⟨[] ++ [], rest, false, false, false⟩, false⟩ size buffersLen buffers
                rfl rfl rfl (by simp) (by simp) (by simp <;> omega) (by simp at hbudget ⊢ <;> omega)
            rw [he]
            refine ⟨r₂, ?_, ?_, fun hle => hwf ?_, fun h => hdead ?_⟩
            · simp [StreamReader.allBytes]
            · rw [hab]
              simp [StreamReader.allBytes]
            · simpa [StreamReader.allBytes] using hle
            · simpa [StreamReader.allBytes] using h
          · rw [streamReadAll_some ⟨buf ++ ch, rest, false, false, false⟩ rfl hempty]
            simp only []
            obtain ⟨r₂, he, hab, hwf, hdead⟩ :=
              ih ⟨⟨[], rest, false, false, false⟩, false⟩ size
                (buffersLen + (buf ++ ch).length) (buffers ++ [buf ++ ch])
                rfl rfl rfl (by simp) (by simp) (by simp <;> omega)
                (by simp at hbudget ⊢ <;> omega)
            rw [he]
            have e1 : List.take (size - buffersLen) buf = buf :=
              List.take_of_length_le (by omega)
            have e2 : List.take (size - buffersLen - buf.length) ch = ch :=
              List.take_of_length_le (by omega)
            have e3 : size - (buffersLen + (buf.length + ch.length)) =
                size - buffersLen - buf.length - ch.length := by omega
            have e4 : List.drop (size - buffersLen) buf = [] :=
              List.drop_of_length_le (by omega)
            have e5 : List.drop (size - buffersLen - buf.length) ch = [] :=
              List.drop_of_length_le (by omega)
            refine ⟨r₂, ?_, ?_, fun hle => hwf ?_, fun h => hdead ?_⟩
            · simp [StreamReader.allBytes, List.take_append_eq_append_take, e1, e2, e3]
            · rw [hab]
              simp [StreamReader.allBytes, List.drop_append_eq_append_drop, e3, e4, e5]
            · simp only [StreamReader.allBytes, List.flatten_cons, List.nil_append,
                List.length_append] at hle ⊢
              omega
            · simp only [StreamReader.allBytes, List.flatten_cons, List.nil_append,
                List.length_append] at h ⊢
              omega
      | nil =>
        cases eof with
        | false =>
          simp only [StreamReader.nextEvent, reduceIte]
          by_cases hbw : buf.length < size - buffersLen
          · by_cases hb0 : buf = []
            · rw [streamRead_zero ⟨buf, [], true, false, false⟩ (size - buffersLen) rfl hb0
                (Or.inl rfl)]
              simp only []
              rw [streamReadAll_empty ⟨buf, [], true, false, false⟩ hb0]
              simp only []
              obtain ⟨r₂, he, hab, hwf, hdead⟩ :=
                ih ⟨⟨buf, [], true, false, false⟩, false⟩ size buffersLen buffers
                  rfl rfl rfl (fun _ => rfl) (fun _ _ => hb0) (by simp [hb0] <;> omega)
                  (by simp at hbudget ⊢ <;> omega)
              exact ⟨r₂, he, hab, hwf, hdead⟩
            · rw [streamRead_eof_short ⟨buf, [], true, false, false⟩ (size - buffersLen) rfl rfl
                hbw hb0]
              simp only []
              obtain ⟨r₂, he, hab, hwf, hdead⟩ :=
                ih ⟨⟨[], [], true, false, false⟩, false⟩ size (buffersLen + buf.length)
                  (buffers ++ [buf]) rfl rfl rfl (fun _ => rfl) (fun _ _ => rfl)
                  (by simp <;> omega) (by simp at hbudget ⊢ <;> omega)
              rw [he]
              have e1 : List.take (size - buffersLen) buf = buf :=
                List.take_of_length_le (by omega)
              have e4 : List.drop (size - buffersLen) buf = [] :=
                List.drop_of_length_le (by omega)
              refine ⟨r₂, ?_, ?_, fun hle => ?_, fun h => hdead ?_⟩
              · simp [StreamReader.allBytes, e1]
              · rw [hab]
                simp [StreamReader.allBytes, e4]
              · exfalso
                simp only [StreamReader.allBytes, List.flatten_nil, List.append_nil] at hle
                omega
              · simp only [StreamReader.allBytes, List.flatten_nil, List.append_nil,
                  List.length_nil] at h ⊢
                omega
          · rw [streamRead_enough ⟨buf, [], true, false, false⟩ (size - buffersLen) rfl hwantpos
              (by omega)]
            simp only []
            obtain ⟨r₂, he, hab, hwf, hdead⟩ :=
              ih ⟨⟨buf.drop (size - buffersLen), [], true, false, false⟩, false⟩ size
                (buffersLen + (buf.take (size - buffersLen)).length)
                (buffers ++ [buf.take (size - buffersLen)])
                rfl rfl rfl (fun _ => rfl) (by simp [List.length_take] <;> omega)
                (by simp [List.length_take] <;> omega) (by simp at hbudget ⊢ <;> omega)
            have hz : size - (buffersLen + (buf.take (size - buffersLen)).length) = 0 := by
              simp [List.length_take]
              omega
            rw [hz] at he hab hwf
            rw [he]
            refine ⟨r₂, ?_, ?_, fun _ => hwf (by simp), fun h => ?_⟩
            · simp [StreamReader.allBytes]
            · rw [hab]
              simp [StreamReader.allBytes]
            · exfalso
              simp only [StreamReader.allBytes, List.flatten_nil, List.append_nil] at h
              omega
        | true =>
          have hbuf : buf = [] := h5 rfl hlt
          subst hbuf
          simp only [StreamReader.nextEvent, Bool.true_eq_false, if_false, ite_false,
            reduceIte]
          rw [streamRead_destroyed ⟨[], [], true, true, true⟩ (size - buffersLen) rfl]
          simp only []
          rw [streamReadAll_destroyed ⟨[], [], true, true, true⟩ rfl]
          simp only []
          rw [StreamReader.readLoop_exit _ _ _ _ _ (by simp)]
          refine ⟨⟨⟨[], [], true, true, true⟩, true⟩, ?_, ?_, fun hle => ?_,
            fun _ => ⟨rfl, rfl⟩⟩
          · simp [StreamReader.allBytes]
          · simp [StreamReader.allBytes]
          · exfalso
            simp only [StreamReader.allBytes, List.flatten_nil, List.append_nil,
              List.length_nil] at hle
            omega

theorem streamRead_k0 (s : RStream) (hd : s.destroyed = false) :
    streamRead s 0 = (none, s) := by
  have heq : (if s.eofSignaled && decide (s.buf.length < 0) then s.buf.length else 0) = 0 := by
    simp
  unfold streamRead
  rw [if_neg (by simp [hd])]
  simp only []
  rw [heq, if_neg (by omega)]

/-- Top-level behaviour of StreamReader.read on a well-formed reader with a sufficient
event budget: it returns exactly the first size bytes still observable (or everything if
fewer are left), leaves the rest observable for the next call, and the reader ends
(destroying its stream) exactly when the source was exhausted before size was reached. -/
theorem StreamReader.read_spec (r : StreamReader) (size d : Nat)
    (hwf : r.wf) (hd : r.s.incoming.length + 2 ≤ d) :
    ∃ r₂, r.read size d = .done (r.allBytes.take size) r₂
      ∧ r₂.allBytes = r.allBytes.drop size
      ∧ (size ≤ r.allBytes.length → r₂.wf)
      ∧ (r.allBytes.length < size → r₂.ended = true ∧ r₂.s.destroyed = true) := by
  obtain ⟨⟨buf, incoming, eof, endE, dst⟩, ended⟩ := r
  obtain ⟨h1, h2, h3, h4⟩ := hwf
  simp only at h1 h2 h3 h4 hd
  subst h1 h2 h3
  simp only [StreamReader.read, Bool.false_eq_true, if_false, ite_false, RStream.readable,
    Bool.not_false, Bool.and_self, if_true, ite_true, reduceIte]
  rcases Nat.eq_zero_or_pos size with hsz | hsz
  · subst hsz
    rw [streamRead_k0 ⟨buf, incoming, eof, false, false⟩ rfl]
    simp only []
    rw [StreamReader.readLoop_exit _ _ _ _ _ (by simp)]
    refine ⟨⟨⟨buf, incoming, eof, false, false⟩, false⟩, by simp, by simp,
      fun _ => ⟨rfl, rfl, rfl, h4⟩, fun h => absurd h (by omega)⟩
  · cases eof with
    | true =>
      have hinc : incoming = [] := h4 rfl
      subst hinc
      by_cases hble : size ≤ buf.length
      · rw [streamRead_enough ⟨buf, [], true, false, false⟩ size rfl hsz hble]
        simp only []
        obtain ⟨r₂, he, hab, hwfl, hdead⟩ :=
          StreamReader.readLoop_spec d ⟨⟨buf.drop size, [], true, false, false⟩, false⟩ size
            ((buf.take size).length) [buf.take size]
            rfl rfl rfl (fun _ => rfl) (by simp [List.length_take] <;> omega)
            (by simp [List.length_take] <;> omega) (by simp at hd ⊢ <;> omega)
        have hz : size - (buf.take size).length = 0 := by
          simp [List.length_take]
          omega
        rw [hz] at he hab hwfl
        rw [he]
        refine ⟨r₂, ?_, ?_, fun _ => ?_, fun h => absurd h (by simp [StreamReader.allBytes]; omega)⟩
        · simp [StreamReader.allBytes]
        · rw [hab]
          simp [StreamReader.allBytes]
        · obtain ⟨w1, w2, w3, w4⟩ := hwfl (by simp)
          exact ⟨w1, w2, w3, w4⟩
      · by_cases hb0 : buf = []
        · rw [streamRead_zero ⟨buf, [], true, false, false⟩ size rfl hb0 (Or.inl rfl)]
          simp only []
          obtain ⟨r₂, he, hab, hwfl, hdead⟩ :=
            StreamReader.readLoop_spec d ⟨⟨buf, [], true, false, false⟩, false⟩ size 0 []
              rfl rfl rfl (fun _ => rfl) (fun _ _ => hb0) (by simp [hb0] <;> omega)
              (by simp at hd ⊢ <;> omega)
          rw [he]
          refine ⟨r₂, by simp, by simpa using hab, fun hle => ?_, fun h => hdead (by simpa using h)⟩
          obtain ⟨w1, w2, w3, w4⟩ := hwfl (by simpa using hle)
          exact ⟨w1, w2, w3, w4⟩
        · rw [streamRead_eof_short ⟨buf, [], true, false, false⟩ size rfl rfl
            (by show buf.length < size; omega) hb0]
          simp only []
          obtain ⟨r₂, he, hab, hwfl, hdead⟩ :=
            StreamReader.readLoop_spec d ⟨⟨[], [], true, false, false⟩, false⟩ size
              (buf.length) [buf]
              rfl rfl rfl (fun _ => rfl) (fun _ _ => rfl) (by simp <;> omega)
              (by simp at hd ⊢ <;> omega)
          rw [he]
          have e1 : List.take size buf = buf := List.take_of_length_le (by omega)
          have e4 : List.drop size buf = [] := List.drop_of_length_le (by omega)
          refine ⟨r₂, ?_, ?_, fun hle => ?_,
            fun _ => hdead (by simp [StreamReader.allBytes] <;> omega)⟩
          · simp [StreamReader.allBytes, e1]
          · rw [hab]
            simp [StreamReader.allBytes, e4]
          · exfalso
            simp only [StreamReader.allBytes, List.flatten_nil, List.append_nil] at hle
            omega
    | false =>
      by_cases hble : size ≤ buf.length
      · rw [streamRead_enough ⟨buf, incoming, false, false, false⟩ size rfl hsz hble]
        simp only []
        obtain ⟨r₂, he, hab, hwfl, hdead⟩ :=
          StreamReader.readLoop_spec d ⟨⟨buf.drop size, incoming, false, false, false⟩, false⟩
            size ((buf.take size).length) [buf.take size]
            rfl rfl rfl (by simp) (by simp) (by simp [List.length_take] <;> omega)
            (by simp at hd ⊢ <;> omega)
        have hz : size - (buf.take size).length = 0 := by
          simp [List.length_take]
          omega
        rw [hz] at he hab hwfl
        rw [he]
        have e1 : List.take size (buf ++ incoming.flatten) = List.take size buf := by
          rw [List.take_append_eq_append_take,
            show size - buf.length = 0 from by omega]
          simp
        have e2 : List.drop size (buf ++ incoming.flatten) =
            List.drop size buf ++ incoming.flatten := by
          rw [List.drop_append_eq_append_drop,
            show size - buf.length = 0 from by omega]
          simp
        refine ⟨r₂, ?_, ?_, fun _ => ?_,
          fun h => absurd h (by simp [StreamReader.allBytes, e1]; omega)⟩
        · simp [StreamReader.allBytes, e1]
        · rw [hab]
          simp [StreamReader.allBytes, e2]
        · obtain ⟨w1, w2, w3, w4⟩ := hwfl (by simp)
          exact ⟨w1, w2, w3, w4⟩
      · rw [streamRead_none_short ⟨buf, incoming, false, false, false⟩ size rfl rfl
          (by show buf.length < size; omega)]
        simp only []
        obtain ⟨r₂, he, hab, hwfl, hdead⟩ :=
          StreamReader.readLoop_spec d ⟨⟨buf, incoming, false, false, false⟩, false⟩ size 0 []
            rfl rfl rfl (by simp) (by simp) (by simp <;> omega)
            (by simp at hd ⊢ <;> omega)
        rw [he]
        refine ⟨r₂, by simp, by simpa using hab, fun hle => ?_,
          fun h => hdead (by simpa using h)⟩
        obtain ⟨w1, w2, w3, w4⟩ := hwfl (by simpa using hle)
        exact ⟨w1, w2, w3, w4⟩


/-- C2: for every StreamReader (well-formed, with the source still able to deliver its
events) and every requested size n, read(n) returns exactly the first min(n, available)
bytes — it stops as soon as n bytes are available or the source ends, and never returns
more than n bytes — with the leftover bytes remaining buffered for the next call; read()
with no size argument returns all bytes up to source end. -/
theorem c2_read_size_bounded_and_drain (r : StreamReader) (d : Nat)
    (hwf : r.wf) (hd : r.s.incoming.length + 2 ≤ d) :
    (∀ n : Nat, ∃ r₂, r.read n d = .done (r.allBytes.take n) r₂
        ∧ (r.allBytes.take n).length ≤ n
        ∧ (n ≤ r.allBytes.length → (r.allBytes.take n).length = n)
        ∧ r.allBytes.take n ++ r₂.allBytes = r.allBytes
        ∧ (n < r.allBytes.length → r₂.wf))
    ∧ (r.allBytes.length ≤ maxSafeInteger →
        ∃ r₂, r.readJS none d = .done r.allBytes r₂) := by
  constructor
  · intro n
    obtain ⟨r₂, he, hab, hwfp, _⟩ := StreamReader.read_spec r n d hwf hd
    refine ⟨r₂, he, ?_, ?_, ?_, fun hlt => hwfp (by omega)⟩
    · simp [List.length_take]
    · intro hle
      simp [List.length_take]
      omega
    · rw [hab, List.take_append_drop]
  · intro hle
    obtain ⟨r₂, he, _, _, _⟩ := StreamReader.read_spec r maxSafeInteger d hwf hd
    refine ⟨r₂, ?_⟩
    show r.read maxSafeInteger d = _
    rw [he, List.take_of_length_le (by omega)]

/-- Witness for C2 at a concrete reader: two chunks [1,2] and [3,4,5] still to arrive,
budget 4 events. -/
theorem c2_read_size_bounded_and_drain_witness :
    c2w.wf ∧ c2w.s.incoming.length + 2 ≤ 4 ∧
      ((∀ n : Nat, ∃ r₂, c2w.read n 4 = .done (c2w.allBytes.take n) r₂
          ∧ (c2w.allBytes.take n).length ≤ n
          ∧ (n ≤ c2w.allBytes.length → (c2w.allBytes.take n).length = n)
          ∧ c2w.allBytes.take n ++ r₂.allBytes = c2w.allBytes
          ∧ (n < c2w.allBytes.length → r₂.wf))
        ∧ (c2w.allBytes.length ≤ maxSafeInteger →
            ∃ r₂, c2w.readJS none 4 = .done c2w.allBytes r₂)) :=
  ⟨⟨rfl, rfl, rfl, by decide⟩, by decide,
    c2_read_size_bounded_and_drain c2w 4 ⟨rfl, rfl, rfl, by decide⟩ (by decide)⟩

/-- C8 counterexample: a read(2) that is awaiting data (in flight) at the moment close()
destroys the stream is never woken — none of the awaited events (error, end, readable)
is ever emitted after destroy — so it hangs instead of observing end-of-stream with zero
bytes.  The claim as stated (every read in flight at close time observes end-of-stream
with zero bytes, without hanging) is therefore false. -/
theorem c8_close_inflight_counterexample :
    c8r.read 2 0 = .hung c8r.close ∧ (c8r.read 2 0).isHung = true := by
  constructor <;> rfl

theorem StreamReader.close_ended (x : StreamReader) (h : x.ended = true) : x.close = x := by
  unfold StreamReader.close
  rw [if_pos (by simp [h])]

/-- C8 (amended): close() is idempotent and releases the underlying source immediately,
and every read issued after close observes end-of-stream with zero bytes, without
hanging and without raising; a read already in flight at close time is never woken and
does not complete.  The hypotheses state the reachable-state invariant that the ended
flag and stream destruction always travel together. -/
theorem c8_close_idempotent_reads_empty (r : StreamReader)
    (h1 : r.ended = true → r.s.destroyed = true)
    (h2 : r.s.destroyed = true → r.ended = true) :
    r.close.close = r.close
    ∧ r.close.s.destroyed = true
    ∧ r.close.ended = true
    ∧ (∀ m d : Nat, r.close.read m d = .done [] r.close) := by
  have hc : r.close.ended = true ∧ r.close.s.destroyed = true := by
    unfold StreamReader.close
    by_cases hif : (r.ended || r.s.destroyed) = true
    · rw [if_pos hif]
      rcases (Bool.or_eq_true _ _).mp hif with hE | hD
      · exact ⟨hE, h1 hE⟩
      · exact ⟨h2 hD, hD⟩
    · rw [if_neg hif]
      exact ⟨rfl, rfl⟩
  refine ⟨StreamReader.close_ended r.close hc.1, hc.2, hc.1, ?_⟩
  intro m d
  rw [StreamReader.read, if_pos hc.1, if_neg (by simp [RStream.readable, hc.2])]

/-- Witness for the amended C8 at a concrete live reader. -/
theorem c8_close_idempotent_reads_empty_witness :
    ((c8w.ended = true → c8w.s.destroyed = true) ∧ (c8w.s.destroyed = true → c8w.ended = true))
    ∧ (c8w.close.close = c8w.close
        ∧ c8w.close.s.destroyed = true
        ∧ c8w.close.ended = true
        ∧ (∀ m d : Nat, c8w.close.read m d = .done [] c8w.close)) :=
  ⟨⟨by decide, by decide⟩,
    c8_close_idempotent_reads_empty c8w (by decide) (by decide)⟩


/-! ## Cmd lemmas and claim theorems -/

theorem codeOrENOENT_ne_empty (x : Option String) : codeOrENOENT x ≠ "" := by
  cases x with
  | none => simp [codeOrENOENT]
  | some c =>
    by_cases hc : c = "" <;> simp [codeOrENOENT, hc]

/-- Each stage of the classification only ever produces the empty string, EACCES, EIO,
or the code of a failing probe. -/
theorem guessCode1_classification (cmd : Cmd) (fs : FsOracle) :
    guessCode1 cmd fs = "" ∨ guessCode1 cmd fs = "EACCES" ∨ guessCode1 cmd fs = "EIO" ∨
      ∃ pc, (fs.accessDir = .error pc ∨ fs.statCommand = .error pc) ∧
        guessCode1 cmd fs = codeOrENOENT pc := by
  unfold guessCode1
  by_cases hsh : cmd.shell = ShellMode.off
  · rw [if_pos hsh]
    rcases hacc : fs.accessDir with pc | u
    · simp only []
      refine Or.inr (Or.inr (Or.inr ⟨pc, Or.inl ?_, ?_⟩)) <;> trivial
    · rcases hst : fs.statCommand with pc | mode
      · simp only []
        refine Or.inr (Or.inr (Or.inr ⟨pc, Or.inr ?_, ?_⟩)) <;> trivial
      · simp only []
        by_cases hmode : mode &&& S_IFREG = 0
        · rw [if_pos hmode]
          exact Or.inr (Or.inl rfl)
        · rw [if_neg hmode]
          exact Or.inr (Or.inr (Or.inl rfl))
  · rw [if_neg hsh]
    exact Or.inl rfl

theorem guessSecond_fst_classification (cmd : Cmd) (fs : FsOracle) :
    (guessSecond cmd fs).1 = "" ∨ (guessSecond cmd fs).1 = "EACCES" ∨
      (guessSecond cmd fs).1 = "EIO" ∨
      ∃ pc, (fs.accessDir = .error pc ∨ fs.statCommand = .error pc) ∧
        (guessSecond cmd fs).1 = codeOrENOENT pc := by
  unfold guessSecond
  by_cases h1 : guessCode1 cmd fs = ""
  · rw [if_pos h1]
    simp only []
    rcases hacc : fs.accessDir with pc | u
    · simp only []
      refine Or.inr (Or.inr (Or.inr ⟨pc, Or.inl ?_, ?_⟩)) <;> trivial
    · simp only []
      exact Or.inr (Or.inr (Or.inl trivial))
  · rw [if_neg h1]
    rcases guessCode1_classification cmd fs with h | h | h | ⟨pc, hpc, h⟩
    · exact absurd h h1
    · exact Or.inr (Or.inl h)
    · exact Or.inr (Or.inr (Or.inl h))
    · exact Or.inr (Or.inr (Or.inr ⟨pc, hpc, h⟩))

/-- The code guessSpawnError produces is EACCES, EIO, UNKNOWN, or the code of the
filesystem probe error itself (defaulted to ENOENT when the probe reports none). -/
theorem guessSpawnError_classification (cmd : Cmd) (fs : FsOracle) :
    ∃ code msg, guessSpawnError cmd fs = .spawnError code msg ∧
      (code = "EACCES" ∨ code = "EIO" ∨ code = "UNKNOWN" ∨
        ∃ pc, (fs.accessDir = .error pc ∨ fs.statCommand = .error pc) ∧
          code = codeOrENOENT pc) := by
  unfold guessSpawnError
  refine ⟨_, _, rfl, ?_⟩
  by_cases h2 : (guessSecond cmd fs).1 = ""
  · rw [if_pos h2]
    exact Or.inr (Or.inr (Or.inl rfl))
  · rw [if_neg h2]
    rcases guessSecond_fst_classification cmd fs with h | h | h | ⟨pc, hpc, h⟩
    · exact absurd h h2
    · exact Or.inl h
    · exact Or.inr (Or.inl h)
    · exact Or.inr (Or.inr (Or.inr ⟨pc, hpc, h⟩))

/-- C3 counterexample: with the working directory accessible and statSync on the
command path failing with ENOTDIR (a path through a regular file), the error start
rejects and throws carries the code ENOTDIR — not one of permission-denied (EACCES),
not-found (ENOENT), I/O-error (EIO) or unknown, so the stated four-way classification
does not hold. -/
theorem c3_classification_counterexample :
    ((Cmd.mk0 "/etc/passwd/x" []).start ⟨false, 0, fsNotdirW⟩).2 =
      .error (.spawnError "ENOTDIR"
        "failed to spawn process /etc/passwd/x (ENOTDIR not a directory)")
    ∧ ("ENOTDIR" ≠ "EACCES" ∧ "ENOTDIR" ≠ "ENOENT" ∧ "ENOTDIR" ≠ "EIO" ∧
        "ENOTDIR" ≠ "UNKNOWN") := by
  exact ⟨rfl, by decide, by decide, by decide, by decide⟩

/-- C3 (amended): whenever the platform assigns no pid, start() treats it as spawn
failure, probes the command path and working directory and classifies the error as
permission-denied (EACCES), I/O-error (EIO), unknown, or the error code reported by the
failing probe itself (ENOENT when it reports none); it rejects the fresh Completion
Future with that error and throws the very same error synchronously, leaving the handle
with no process and pid 0. -/
theorem c3_spawn_failure_diagnosis (c : Cmd) (env : SpawnEnv)
    (hr : c.running = false) (hs : env.spawnOk = false) :
    ∃ c₂ e, c.start env = (c₂, .error e)
      ∧ c₂.promise = .rejected c.nextGen e
      ∧ c₂.processSet = false
      ∧ c₂.pid = 0
      ∧ c₂.running = c.running
      ∧ ∃ code msg, e = .spawnError code msg ∧
          (code = "EACCES" ∨ code = "EIO" ∨ code = "UNKNOWN" ∨
            ∃ pc, (env.fs.accessDir = .error pc ∨ env.fs.statCommand = .error pc) ∧
              code = codeOrENOENT pc) := by
  unfold Cmd.start
  rw [if_neg (by simp [hr]), if_pos hs]
  obtain ⟨code, msg, heq, hclass⟩ :=
    guessSpawnError_classification
      { c with
        exitCode := -1
        promise := PromiseSt.pending c.nextGen
        nextGen := c.nextGen + 1
        processSet := false
        pid := 0 } env.fs
  refine ⟨_, _, rfl, ?_, rfl, rfl, rfl, code, msg, heq, hclass⟩
  simp only [PromiseSt.reject, heq]

/-- Witness for the amended C3: probing an inaccessible directory (EACCES) after a
failed spawn of ls. -/
theorem c3_spawn_failure_diagnosis_witness :
    (Cmd.mk0 "ls" []).running = false ∧ envFailW.spawnOk = false ∧
      (∃ c₂ e, (Cmd.mk0 "ls" []).start envFailW = (c₂, .error e)
        ∧ c₂.promise = .rejected (Cmd.mk0 "ls" []).nextGen e
        ∧ c₂.processSet = false
        ∧ c₂.pid = 0
        ∧ c₂.running = (Cmd.mk0 "ls" []).running
        ∧ ∃ code msg, e = .spawnError code msg ∧
            (code = "EACCES" ∨ code = "EIO" ∨ code = "UNKNOWN" ∨
              ∃ pc, (envFailW.fs.accessDir = .error pc ∨
                  envFailW.fs.statCommand = .error pc) ∧
                code = codeOrENOENT pc)) :=
  ⟨rfl, rfl, c3_spawn_failure_diagnosis (Cmd.mk0 "ls" []) envFailW rfl rfl⟩

/-- C4: exit accounting.  A reported signal name records the negation of its number
(unknown names record -1); otherwise the numeric code is recorded (code || 0); the
handle stops running and the recorded value resolves the Completion Future, which is
exactly what wait — and run/output/kill, which all read this promise — surface. -/
theorem c4_exit_accounting (c : Cmd) (signals : String → Option Nat)
    (code : Option Int) (sig : Option String) (g : Nat)
    (hp : c.promise = .pending g) (hok : ¬(code = none ∧ sig = none)) :
    ∃ c₂, c.onexit signals code sig = .ok c₂
      ∧ (∀ s, sig = some s →
          c₂.exitCode = -((jsOrNat (signals s) 1 : Nat) : Int)
          ∧ (signals s = none → c₂.exitCode = -1))
      ∧ (sig = none → ∃ cd, code = some cd ∧ c₂.exitCode = jsOrInt (some cd) 0)
      ∧ c₂.running = false
      ∧ c₂.promise = .resolved g c₂.exitCode
      ∧ ∀ (tsig : Option String) (wEnv : WaitEnv) (sigEnv : SignalEnv) (kEnv : KillEnv),
          c₂.wait none tsig wEnv sigEnv kEnv = (.value c₂.exitCode, []) := by
  cases sig with
  | some s =>
    refine ⟨{ c with
        running := false
        exitCode := -((jsOrNat (signals s) 1 : Nat) : Int)
        promise := c.promise.resolve (-((jsOrNat (signals s) 1 : Nat) : Int)) },
      ?_, ?_, by simp, rfl, ?_, ?_⟩
    · unfold Cmd.onexit
      rw [if_pos (Or.inr (by simp))]
    · intro s2 hs2
      obtain rfl : s = s2 := by injection hs2
      refine ⟨rfl, fun hn => ?_⟩
      simp [jsOrNat, hn]
    · simp only [hp, PromiseSt.resolve]
    · intro tsig wEnv sigEnv kEnv
      unfold Cmd.wait
      simp only [hp, PromiseSt.resolve, promiseToWVal]
  | none =>
    have hcode : ∃ cd, code = some cd := by
      cases code with
      | none => exact absurd ⟨rfl, rfl⟩ hok
      | some cd => exact ⟨cd, rfl⟩
    obtain ⟨cd, rfl⟩ := hcode
    refine ⟨{ c with
        running := false
        exitCode := jsOrInt (some cd) 0
        promise := c.promise.resolve (jsOrInt (some cd) 0) },
      ?_, by simp, fun _ => ⟨cd, rfl, rfl⟩, rfl, ?_, ?_⟩
    · unfold Cmd.onexit
      rw [if_neg (by simp)]
    · simp only [hp, PromiseSt.resolve]
    · intro tsig wEnv sigEnv kEnv
      unfold Cmd.wait
      simp only [hp, PromiseSt.resolve, promiseToWVal]

/-- Witness for C4: startedW terminated by SIGKILL records -9 and resolves its future
with -9, surfaced by wait. -/
theorem c4_exit_accounting_witness :
    startedW.promise = .pending 1 ∧ ¬((none : Option Int) = none ∧
        (some "SIGKILL" : Option String) = none) ∧
      (∃ c₂, startedW.onexit sigTblW none (some "SIGKILL") = .ok c₂
        ∧ (∀ s, (some "SIGKILL" : Option String) = some s →
            c₂.exitCode = -((jsOrNat (sigTblW s) 1 : Nat) : Int)
            ∧ (sigTblW s = none → c₂.exitCode = -1))
        ∧ ((some "SIGKILL" : Option String) = none →
            ∃ cd, (none : Option Int) = some cd ∧ c₂.exitCode = jsOrInt (some cd) 0)
        ∧ c₂.running = false
        ∧ c₂.promise = .resolved 1 c₂.exitCode
        ∧ ∀ (tsig : Option String) (wEnv : WaitEnv) (sigEnv : SignalEnv)
            (kEnv : KillEnv),
            c₂.wait none tsig wEnv sigEnv kEnv = (.value c₂.exitCode, [])) :=
  ⟨rfl, by simp,
    c4_exit_accounting startedW sigTblW none (some "SIGKILL") 1 rfl (by simp)⟩

/-- C7: start() on a running handle fails with the AlreadyRunning error and leaves the
state untouched; once the handle has reached a terminal state through exit accounting,
start() succeeds again, resets the recorded exit code and allocates a fresh Completion
Future of a strictly newer generation, independent of the previous one. -/
theorem c7_start_reuse :
    (∀ (c : Cmd) (env : SpawnEnv), c.running = true →
        c.start env = (c, .error (.error "start() called while command is running")))
    ∧ ∀ (c : Cmd) (signals : String → Option Nat) (cd : Int) (env : SpawnEnv),
        env.spawnOk = true → c.promise.gen < c.nextGen →
        ∀ c₁, c.onexit signals (some cd) none = .ok c₁ →
          ∃ c₂ pipes, c₁.start env = (c₂, .ok pipes)
            ∧ c₂.exitCode = -1
            ∧ c₂.running = true
            ∧ c₂.processSet = true
            ∧ c₂.promise = .pending c.nextGen
            ∧ c₂.promise.gen ≠ c₁.promise.gen := by
  constructor
  · intro c env hrun
    unfold Cmd.start
    rw [if_pos hrun]
  · intro c signals cd env hs hgen c₁ hexit
    have hc1 : c₁ = { c with
        running := false
        exitCode := jsOrInt (some cd) 0
        promise := c.promise.resolve (jsOrInt (some cd) 0) } := by
      unfold Cmd.onexit at hexit
      rw [if_neg (by simp)] at hexit
      simp only [jsOrInt] at hexit ⊢
      injection hexit with h
      exact h.symm
    subst hc1
    have hgenres : (c.promise.resolve (jsOrInt (some cd) 0)).gen = c.promise.gen := by
      cases c.promise <;> rfl
    unfold Cmd.start
    rw [if_neg (by simp)]
    rw [if_neg (by simp [hs])]
    by_cases hpipes : ¬((stdinSpawnCfg c.stdin).1 = SpawnIo.pipe ∧
        c.stdin.isBuffer = false ∧ (stdinSpawnCfg c.stdin).2 = false) ∧
        ¬(outSpawnCfg c.stdout = SpawnIo.pipe) ∧ ¬(outSpawnCfg c.stderr = SpawnIo.pipe) ∧
        3 + c.extraFiles.length < 4
    · rw [if_pos hpipes]
      refine ⟨_, none, rfl, rfl, rfl, rfl, rfl, ?_⟩
      show c.nextGen ≠ (c.promise.resolve (jsOrInt (some cd) 0)).gen
      rw [hgenres]
      omega
    · rw [if_neg hpipes]
      refine ⟨_, _, rfl, rfl, rfl, rfl, rfl, ?_⟩
      show c.nextGen ≠ (c.promise.resolve (jsOrInt (some cd) 0)).gen
      rw [hgenres]
      omega

/-- Witness for C7: starting the running startedW fails with AlreadyRunning; after its
exit with code 5, starting exitedW again succeeds with a fresh generation-2 future. -/
theorem c7_start_reuse_witness :
    startedW.start envOkW =
      (startedW, .error (.error "start() called while command is running"))
    ∧ (∃ c₂ pipes, exitedW.start envOkW = (c₂, .ok pipes)
        ∧ c₂.exitCode = -1
        ∧ c₂.running = true
        ∧ c₂.processSet = true
        ∧ c₂.promise = .pending startedW.nextGen
        ∧ c₂.promise.gen ≠ exitedW.promise.gen) := by
  refine ⟨c7_start_reuse.1 startedW envOkW rfl, ?_⟩
  exact c7_start_reuse.2 startedW sigTblW 5 envOkW rfl (by decide) exitedW rfl

/-- C9: before any start(), the Completion Future is the pre-failed placeholder
rejecting with the not-started error, and wait() — called with no timeout, or with a
non-positive one, both of which return the promise directly — fails deterministically
with that error instead of hanging. -/
theorem c9_wait_before_start (command : String) (args : List String)
    (tsig : Option String) (wEnv : WaitEnv) (sigEnv : SignalEnv) (kEnv : KillEnv) :
    (Cmd.mk0 command args).promise = .rejected 0 (.error NOT_STARTED_ERROR)
    ∧ (Cmd.mk0 command args).wait none tsig wEnv sigEnv kEnv =
        (.rejectedErr (.error NOT_STARTED_ERROR), [])
    ∧ ∀ t : Int, t ≤ 0 →
        (Cmd.mk0 command args).wait (some t) tsig wEnv sigEnv kEnv =
          (.rejectedErr (.error NOT_STARTED_ERROR), []) := by
  refine ⟨rfl, rfl, fun t ht => ?_⟩
  unfold Cmd.wait
  simp only []
  rw [if_pos ht]
  rfl

/-- Witness for C9 on new Cmd(ls). -/
theorem c9_wait_before_start_witness :
    (Cmd.mk0 "ls" []).promise = .rejected 0 (.error NOT_STARTED_ERROR)
    ∧ (Cmd.mk0 "ls" []).wait none none ⟨none⟩ ⟨true, true⟩ ⟨false, none, none⟩ =
        (.rejectedErr (.error NOT_STARTED_ERROR), [])
    ∧ (Cmd.mk0 "ls" []).wait (some 0) none ⟨none⟩ ⟨true, true⟩ ⟨false, none, none⟩ =
        (.rejectedErr (.error NOT_STARTED_ERROR), []) :=
  have h := c9_wait_before_start "ls" [] none ⟨none⟩ ⟨true, true⟩ ⟨false, none, none⟩
  ⟨h.1, h.2.1, h.2.2 0 (by decide)⟩

/-- C10: with stdin configured as an in-memory Buffer, or as a Reader whose underlying
stream is not descriptor-backed (no string fd, so the library pumps it itself), fd 0 is
spawned as a pipe, yet the Pipe Bundle start() returns carries no stdin writer; and if
no other descriptor was piped, start() returns null. -/
theorem c10_pumped_stdin_no_writer (c : Cmd) (env : SpawnEnv)
    (hr : c.running = false) (hs : env.spawnOk = true)
    (hin : (∃ data, c.stdin = .buffer data) ∨ c.stdin = .reader false) :
    (stdinSpawnCfg c.stdin).1 = SpawnIo.pipe
    ∧ (∀ c₂ bundle, c.start env = (c₂, .ok (some bundle)) → bundle.stdin = none)
    ∧ (c.stdout ≠ OutCfg.pipe → c.stderr ≠ OutCfg.pipe → c.extraFiles = [] →
        ∃ c₂, c.start env = (c₂, .ok none)) := by
  have hnostdin : ¬((stdinSpawnCfg c.stdin).1 = SpawnIo.pipe ∧
      c.stdin.isBuffer = false ∧ (stdinSpawnCfg c.stdin).2 = false) := by
    rcases hin with ⟨data, hb⟩ | hrd
    · rw [hb]
      simp [stdinSpawnCfg, StdinCfg.isBuffer]
    · rw [hrd]
      simp [stdinSpawnCfg]
  have hpipe : (stdinSpawnCfg c.stdin).1 = SpawnIo.pipe := by
    rcases hin with ⟨data, hb⟩ | hrd
    · rw [hb]
      rfl
    · rw [hrd]
      rfl
  refine ⟨hpipe, ?_, ?_⟩
  · intro c₂ bundle hstart
    unfold Cmd.start at hstart
    rw [if_neg (by simp [hr]), if_neg (by simp [hs])] at hstart
    by_cases hnull : ¬((stdinSpawnCfg c.stdin).1 = SpawnIo.pipe ∧
        c.stdin.isBuffer = false ∧ (stdinSpawnCfg c.stdin).2 = false) ∧
        ¬(outSpawnCfg c.stdout = SpawnIo.pipe) ∧ ¬(outSpawnCfg c.stderr = SpawnIo.pipe) ∧
        3 + c.extraFiles.length < 4
    · rw [if_pos hnull] at hstart
      exact absurd (congrArg Prod.snd hstart) (by simp)
    · rw [if_neg hnull] at hstart
      have hb := congrArg Prod.snd hstart
      simp only at hb
      injection hb with hb2
      injection hb2 with hb3
      rw [← hb3]
      simp only [if_neg hnostdin]
  · intro hso hse hex
    unfold Cmd.start
    rw [if_neg (by simp [hr]), if_neg (by simp [hs])]
    rw [if_pos ?_]
    · exact ⟨_, rfl⟩
    · refine ⟨hnostdin, ?_, ?_, ?_⟩
      · cases hc : c.stdout <;> simp [outSpawnCfg] <;> simp [hc] at hso ⊢
      · cases hc : c.stderr <;> simp [outSpawnCfg] <;> simp [hc] at hse ⊢
      · rw [hex]
        simp

/-- Witness for C10: a Buffer-stdin tr with nothing else piped spawns fd 0 as a pipe
and start() returns null. -/
theorem c10_pumped_stdin_no_writer_witness :
    ({ Cmd.mk0 "tr" [] with stdin := StdinCfg.buffer [72] }).running = false
    ∧ envOkW.spawnOk = true
    ∧ ((stdinSpawnCfg ({ Cmd.mk0 "tr" [] with
          stdin := StdinCfg.buffer [72] }).stdin).1 = SpawnIo.pipe
      ∧ (∀ c₂ bundle, ({ Cmd.mk0 "tr" [] with stdin := StdinCfg.buffer [72] }).start
            envOkW = (c₂, .ok (some bundle)) → bundle.stdin = none)
      ∧ (({ Cmd.mk0 "tr" [] with stdin := StdinCfg.buffer [72] }).stdout ≠ OutCfg.pipe →
          ({ Cmd.mk0 "tr" [] with stdin := StdinCfg.buffer [72] }).stderr ≠ OutCfg.pipe →
          ({ Cmd.mk0 "tr" [] with stdin := StdinCfg.buffer [72] }).extraFiles = [] →
          ∃ c₂, ({ Cmd.mk0 "tr" [] with stdin := StdinCfg.buffer [72] }).start envOkW =
            (c₂, .ok none))) :=
  ⟨rfl, rfl, c10_pumped_stdin_no_writer _ envOkW rfl rfl (Or.inl ⟨[72], rfl⟩)⟩

/-- Every signal attempt recorded by one signal() call carries the requested signal. -/
theorem signal_trace_sig (c : Cmd) (sig : String) (m : Option SignalMode)
    (env : SignalEnv) : ∀ e ∈ (c.signal sig m env).2, e.sig = sig := by
  unfold Cmd.signal
  split
  · intro e he
    simp at he
  · split
    · split
      · intro e he
        simp at he
        rw [he]
      · intro e he
        simp at he
        rcases he with rfl | rfl <;> rfl
    · intro e he
      simp at he
      rw [he]

/-- C6: kill raises only on a never-started handle.  On a started one it never raises:
it sends sig via signal (mode || group); on rejected delivery it returns
p.exitCode || 0 immediately with no escalation; with timeout <= 0 it settles with the
Completion Future alone, waiting indefinitely for natural exit; when the future settles
before the escalation timer no SIGKILL is sent; when the timer fires first exactly one
forced SIGKILL is sent, aimed directly at the process and not at the group, and the
call settles with the Completion Future's exit code. -/
theorem c6_kill_behaviour (c : Cmd) (sig : String) (timeout : Int)
    (mode : Option SignalMode) (sigEnv : SignalEnv) (kEnv : KillEnv) :
    (c.processSet = false →
        c.kill sig timeout mode sigEnv kEnv = (.error (.error NOT_STARTED_ERROR), []))
    ∧ (c.processSet = true →
        (∃ kv evs, c.kill sig timeout mode sigEnv kEnv = (.ok kv, evs))
        ∧ ((c.signal sig (some (mode.getD SignalMode.group)) sigEnv).1 = .ok false →
            c.kill sig timeout mode sigEnv kEnv =
              (.ok (.value (jsOrInt kEnv.procExitCode 0)),
                (c.signal sig (some (mode.getD SignalMode.group)) sigEnv).2))
        ∧ ((c.signal sig (some (mode.getD SignalMode.group)) sigEnv).1 = .ok true →
            timeout ≤ 0 →
            c.kill sig timeout mode sigEnv kEnv =
              (.ok .fromPromise,
                (c.signal sig (some (mode.getD SignalMode.group)) sigEnv).2))
        ∧ ((c.signal sig (some (mode.getD SignalMode.group)) sigEnv).1 = .ok true →
            0 < timeout → kEnv.exitBeforeKillTimer = true →
            c.kill sig timeout mode sigEnv kEnv =
              (.ok .fromPromise,
                (c.signal sig (some (mode.getD SignalMode.group)) sigEnv).2))
        ∧ ((c.signal sig (some (mode.getD SignalMode.group)) sigEnv).1 = .ok true →
            0 < timeout → kEnv.exitBeforeKillTimer = false →
            c.kill sig timeout mode sigEnv kEnv =
              (.ok .fromPromise,
                (c.signal sig (some (mode.getD SignalMode.group)) sigEnv).2 ++
                  [⟨SigTarget.proc c.pid, "SIGKILL"⟩])
            ∧ (sig ≠ "SIGKILL" →
                ((c.kill sig timeout mode sigEnv kEnv).2.filter
                  (fun e => e.sig == "SIGKILL")).length = 1))) := by
  constructor
  · intro hns
    unfold Cmd.kill
    rw [if_pos hns]
  · intro hst
    have hne : ¬(c.processSet = false) := by simp [hst]
    refine ⟨?_, ?_, ?_, ?_, ?_⟩
    · unfold Cmd.kill
      rw [if_neg hne]
      simp only []
      rcases hb : (c.signal sig (some (mode.getD SignalMode.group)) sigEnv).1 with e | b
      · exfalso
        unfold Cmd.signal at hb
        rw [if_neg hne] at hb
        by_cases hm : (some (mode.getD SignalMode.group) : Option SignalMode) =
            some SignalMode.group
        · rw [if_pos hm] at hb
          by_cases hg : sigEnv.groupKillOk
          · rw [if_pos hg] at hb
            simp at hb
          · rw [if_neg hg] at hb
            simp at hb
        · rw [if_neg hm] at hb
          simp at hb
      · simp only [hb]
        split
        · exact ⟨_, _, rfl⟩
        · split
          · exact ⟨_, _, rfl⟩
          · split
            · exact ⟨_, _, rfl⟩
            · exact ⟨_, _, rfl⟩
    · intro hfalse
      unfold Cmd.kill
      rw [if_neg hne]
      simp only [hfalse]
      rw [if_pos trivial]
    · intro htrue ht0
      unfold Cmd.kill
      rw [if_neg hne]
      simp only [htrue]
      rw [if_neg (by simp), if_pos ht0]
    · intro htrue ht0 hexit
      unfold Cmd.kill
      rw [if_neg hne]
      simp only [htrue]
      rw [if_neg (by simp), if_neg (by omega), if_pos hexit]
    · intro htrue ht0 hexit
      have hk : c.kill sig timeout mode sigEnv kEnv =
          (.ok .fromPromise,
            (c.signal sig (some (mode.getD SignalMode.group)) sigEnv).2 ++
              [⟨SigTarget.proc c.pid, "SIGKILL"⟩]) := by
        unfold Cmd.kill
        rw [if_neg hne]
        simp only [htrue]
        rw [if_neg (by simp), if_neg (by omega), if_neg (by simp [hexit])]
      refine ⟨hk, fun hnk => ?_⟩
      rw [hk]
      simp only [List.filter_append]
      have h1 : (c.signal sig (some (mode.getD SignalMode.group)) sigEnv).2.filter
          (fun e => e.sig == "SIGKILL") = [] := by
        rw [List.filter_eq_nil_iff]
        intro e he
        have := signal_trace_sig c sig (some (mode.getD SignalMode.group)) sigEnv e he
        simp [this, hnk]
      rw [h1]
      simp

/-- Witness for C6 at startedW (delivery accepted, timer fires first): one group
SIGTERM attempt, one forced SIGKILL to the process, resolution from the future. -/
theorem c6_kill_behaviour_witness :
    startedW.processSet = true ∧
      (startedW.signal "SIGTERM" (some ((none : Option SignalMode).getD
          SignalMode.group)) ⟨true, true⟩).1 = .ok true ∧
      (0 : Int) < 500 ∧ (⟨false, some 0, none⟩ : KillEnv).exitBeforeKillTimer = false ∧
      (startedW.kill "SIGTERM" 500 none ⟨true, true⟩ ⟨false, some 0, none⟩ =
          (.ok .fromPromise,
            (startedW.signal "SIGTERM" (some ((none : Option SignalMode).getD
                SignalMode.group)) ⟨true, true⟩).2 ++
              [⟨SigTarget.proc startedW.pid, "SIGKILL"⟩])
        ∧ ("SIGTERM" ≠ "SIGKILL" →
            ((startedW.kill "SIGTERM" 500 none ⟨true, true⟩
                ⟨false, some 0, none⟩).2.filter
              (fun e => e.sig == "SIGKILL")).length = 1)) :=
  ⟨rfl, rfl, by decide, rfl,
    ((c6_kill_behaviour startedW "SIGTERM" 500 none ⟨true, true⟩
        ⟨false, some 0, none⟩).2 rfl).2.2.2.2 rfl (by decide) rfl⟩

/-- C1: wait(t) with a positive timeout on a started handle.  If the Completion Future
settles before the timer, the call resolves with that natural exit code and sends no
signals.  If the timer fires first, the emitted signal sequence is exactly that of
kill with the default signal (SIGTERM), default escalation timeout (500) and default
group mode — its first attempt targets the process group — and, as soon as that kill
completes, the call fails with the Timeout error; even when the process exits during
the kill (the future settles with some code), the caller-visible result is the Timeout
failure, never that exit code: exactly one of the two outcomes resolves the call. -/
theorem c1_wait_timeout_race (c : Cmd) (t : Int) (wEnv : WaitEnv) (sigEnv : SignalEnv)
    (kEnv : KillEnv) (hst : c.processSet = true) (ht : 0 < t) :
    (∀ v, wEnv.exitBeforeTimer = some v →
        c.wait (some t) none wEnv sigEnv kEnv = (.value v, []))
    ∧ (wEnv.exitBeforeTimer = none →
        (c.wait (some t) none wEnv sigEnv kEnv).2 =
          (c.kill "SIGTERM" 500 none sigEnv kEnv).2
        ∧ (∃ rest, (c.wait (some t) none wEnv sigEnv kEnv).2 =
            ⟨SigTarget.group (jsOrNat (some c.pid) 1), "SIGTERM"⟩ :: rest)
        ∧ (∀ kv, (c.kill "SIGTERM" 500 none sigEnv kEnv).1 = .ok kv →
            runKVal kv kEnv.promiseCode ≠ none →
            (c.wait (some t) none wEnv sigEnv kEnv).1 =
              .rejectedErr (.timeoutError "Cmd.wait timeout"))
        ∧ (∀ v, kEnv.promiseCode = some v →
            (c.wait (some t) none wEnv sigEnv kEnv).1 ≠ .value v)) := by
  have hne : ¬(c.processSet = false) := by simp [hst]
  have hw : c.wait (some t) none wEnv sigEnv kEnv =
      (match wEnv.exitBeforeTimer with
       | some code => (.value code, [])
       | none =>
         match (c.kill "SIGTERM" 500 none sigEnv kEnv).1 with
         | .ok kv =>
           (match runKVal kv kEnv.promiseCode with
            | some _ => (.rejectedErr (.timeoutError "Cmd.wait timeout"),
                (c.kill "SIGTERM" 500 none sigEnv kEnv).2)
            | none => (.pending, (c.kill "SIGTERM" 500 none sigEnv kEnv).2))
         | .error _ => (.pending, (c.kill "SIGTERM" 500 none sigEnv kEnv).2)) := by
    unfold Cmd.wait
    simp only [Option.getD]
    rw [if_neg (by omega)]
  refine ⟨fun v hv => ?_, fun hnone => ⟨?_, ?_, ?_, ?_⟩⟩
  · rw [hw, hv]
  · rw [hw, hnone]
    rcases hk : (c.kill "SIGTERM" 500 none sigEnv kEnv).1 with e | kv
    · simp only [hk]
    · simp only [hk]
      rcases hr2 : runKVal kv kEnv.promiseCode with _ | v <;> simp only [hr2]
  · have hs2 : ∃ rest2, (c.signal "SIGTERM" (some SignalMode.group) sigEnv).2 =
        ⟨SigTarget.group (jsOrNat (some c.pid) 1), "SIGTERM"⟩ :: rest2 := by
      unfold Cmd.signal
      rw [if_neg hne, if_pos rfl]
      by_cases hg : sigEnv.groupKillOk
      · rw [if_pos hg]
        exact ⟨[], rfl⟩
      · rw [if_neg hg]
        exact ⟨_, rfl⟩
    have hk2 : ∃ rest, (c.kill "SIGTERM" 500 none sigEnv kEnv).2 =
        ⟨SigTarget.group (jsOrNat (some c.pid) 1), "SIGTERM"⟩ :: rest := by
      obtain ⟨rest2, hr2⟩ := hs2
      unfold Cmd.kill
      rw [if_neg hne]
      simp only [Option.getD]
      rcases hb : (c.signal "SIGTERM" (some SignalMode.group) sigEnv).1 with e | b
      · exact ⟨rest2, hr2⟩
      · simp only [hb]
        split
        · exact ⟨rest2, hr2⟩
        · split
          · exact ⟨rest2, hr2⟩
          · split
            · exact ⟨rest2, hr2⟩
            · exact ⟨rest2 ++ [⟨SigTarget.proc c.pid, "SIGKILL"⟩], by rw [hr2]; rfl⟩
    obtain ⟨rest, hr⟩ := hk2
    rw [hw, hnone]
    rcases hk : (c.kill "SIGTERM" 500 none sigEnv kEnv).1 with e | kv
    · simp only [hk]
      exact ⟨rest, hr⟩
    · simp only [hk]
      rcases hr2 : runKVal kv kEnv.promiseCode with _ | v <;> simp only [hr2] <;>
        exact ⟨rest, hr⟩
  · intro kv hkv hrun
    rw [hw, hnone]
    simp only [hkv]
    rcases hr2 : runKVal kv kEnv.promiseCode with _ | v
    · exact absurd hr2 hrun
    · simp only [hr2]
  · intro v hv2
    rw [hw, hnone]
    rcases hk : (c.kill "SIGTERM" 500 none sigEnv kEnv).1 with e | kv
    · simp only [hk]
      simp
    · simp only [hk]
      rcases hr2 : runKVal kv kEnv.promiseCode with _ | v2 <;> simp only [hr2] <;> simp

/-- Witness for C1 at startedW: timer fires first (the future would settle with 0 only
during the kill), so the result is the Timeout failure and the trace is the group
SIGTERM followed by the forced SIGKILL. -/
theorem c1_wait_timeout_race_witness :
    startedW.processSet = true ∧ (0 : Int) < 100 ∧
      startedW.wait (some 100) none ⟨none⟩ ⟨true, true⟩ ⟨false, some 0, none⟩ =
        (.rejectedErr (.timeoutError "Cmd.wait timeout"),
          [⟨SigTarget.group 42, "SIGTERM"⟩, ⟨SigTarget.proc 42, "SIGKILL"⟩]) := by
  refine ⟨rfl, by decide, ?_⟩
  have h := c1_wait_timeout_race startedW 100 ⟨none⟩ ⟨true, true⟩
    ⟨false, some 0, none⟩ rfl (by decide)
  have h1 := (h.2 rfl).2.2.1 KVal.fromPromise rfl (by simp [runKVal])
  have h2 := (h.2 rfl).1
  have h3 : (startedW.kill "SIGTERM" 500 none ⟨true, true⟩ ⟨false, some 0, none⟩).2 =
      [⟨SigTarget.group 42, "SIGTERM"⟩, ⟨SigTarget.proc 42, "SIGKILL"⟩] := rfl
  exact Prod.ext h1 (h2.trans h3)

theorem foldl_write_data (chunks : List (List Byte)) :
    ∀ b : DataBuffer, (chunks.foldl DataBuffer.write b).data = b.data ++ chunks := by
  induction chunks with
  | nil =>
    intro b
    simp
  | cons ch rest ih =>
    intro b
    simp only [List.foldl_cons, ih, DataBuffer.write]
    simp

/-- An accumulating sink fed a list of chunks materializes exactly their concatenation
in arrival order. -/
theorem foldl_write_buffer (chunks : List (List Byte)) :
    (chunks.foldl DataBuffer.write createDataBuffer).buffer = chunks.flatten := by
  unfold DataBuffer.buffer
  rw [foldl_write_data]
  simp [createDataBuffer]

/-- C5: output forces stdout — and stderr, when unset — to pipes and starts the
process; on completion the call fails exactly when the exit code is non-zero, with a
message embedding the exit code and, when stderr was captured non-empty, ending in the
captured stderr bytes; on exit code 0 it resolves with the captured stdout bytes,
decoded exactly when an encoding was requested. -/
theorem c5_output_capture (c : Cmd) (env : SpawnEnv) (encoding : Option String)
    (outCh errCh : List (List Byte)) (exitCode : Int)
    (hr : c.running = false) (hs : env.spawnOk = true) :
    (c.output env encoding outCh errCh exitCode).1.running = true
    ∧ (c.output env encoding outCh errCh exitCode).1.stdout = OutCfg.pipe
    ∧ (c.stderr = OutCfg.null →
        (c.output env encoding outCh errCh exitCode).1.stderr = OutCfg.pipe)
    ∧ ((∃ m, (c.output env encoding outCh errCh exitCode).2 = .failed m) ↔
        exitCode ≠ 0)
    ∧ (∀ m, (c.output env encoding outCh errCh exitCode).2 = .failed m →
        ∃ post, m = strBytes "command exited with status " ++
          strBytes (toString exitCode) ++ post)
    ∧ (∀ m, (c.output env encoding outCh errCh exitCode).2 = .failed m →
        (c.stderr = OutCfg.null ∨ c.stderr = OutCfg.pipe) → errCh.flatten ≠ [] →
        ∃ pre, m = pre ++ errCh.flatten)
    ∧ (exitCode = 0 → (c.output env encoding outCh errCh exitCode).2 =
        .ok (match encoding with
          | some _ => OutVal.text outCh.flatten
          | none => OutVal.bytes outCh.flatten)) := by
  have hstart : ({ c with
      stdout := OutCfg.pipe
      stderr := if c.stderr = OutCfg.null then OutCfg.pipe else c.stderr } : Cmd).start
        env =
      ({ c with
          stdout := OutCfg.pipe
          stderr := if c.stderr = OutCfg.null then OutCfg.pipe else c.stderr
          exitCode := -1
          promise := PromiseSt.pending c.nextGen
          nextGen := c.nextGen + 1
          running := true
          processSet := true
          pid := env.pidVal },
        .ok (some
          { stdin := if (stdinSpawnCfg c.stdin).1 = SpawnIo.pipe ∧
                c.stdin.isBuffer = false ∧ (stdinSpawnCfg c.stdin).2 = false then
                some PipeEnd.writer else none
            stdout := if outSpawnCfg OutCfg.pipe = SpawnIo.pipe then
                some PipeEnd.reader else none
            stderr := if outSpawnCfg
                  (if c.stderr = OutCfg.null then OutCfg.pipe else c.stderr) =
                  SpawnIo.pipe then some PipeEnd.reader else none
            extraFiles := c.extraFiles.map fun e =>
              if e = ExtraCfg.pipe then some PipeEnd.reader else none })) := by
    unfold Cmd.start
    rw [if_neg (by simp [hr]), if_neg (by simp [hs]),
      if_neg (by intro hcon; exact hcon.2.1 rfl)]
  have hout : c.output env encoding outCh errCh exitCode =
      ({ c with
          stdout := OutCfg.pipe
          stderr := if c.stderr = OutCfg.null then OutCfg.pipe else c.stderr
          exitCode := -1
          promise := PromiseSt.pending c.nextGen
          nextGen := c.nextGen + 1
          running := true
          processSet := true
          pid := env.pidVal },
        if exitCode ≠ 0 then
          .failed (strBytes "command exited with status " ++
            strBytes (toString exitCode) ++
            (if (if (if outSpawnCfg
                    (if c.stderr = OutCfg.null then OutCfg.pipe else c.stderr) =
                    SpawnIo.pipe then some PipeEnd.reader else none).isSome then
                  errCh.flatten else []).length > 0 then
              strBytes "stderr output:\n" ++
                (if (if outSpawnCfg
                    (if c.stderr = OutCfg.null then OutCfg.pipe else c.stderr) =
                    SpawnIo.pipe then some PipeEnd.reader else none).isSome then
                  errCh.flatten else [])
            else []))
        else
          .ok (match encoding with
            | some _ => OutVal.text outCh.flatten
            | none => OutVal.bytes outCh.flatten)) := by
    unfold Cmd.output
    simp only []
    rw [hstart]
    have hnone : (createDataBuffer.buffer : List Byte) = [] := rfl
    by_cases hPE : outSpawnCfg
        (if c.stderr = OutCfg.null then OutCfg.pipe else c.stderr) = SpawnIo.pipe
    · simp only [if_pos hPE, Option.isSome_some, reduceIte, foldl_write_buffer]
      by_cases hz : exitCode ≠ 0
      · rw [if_pos hz, if_pos hz]
      · rw [if_neg hz, if_neg hz]
    · simp only [if_neg hPE, Option.isSome_none, Bool.false_eq_true, if_false,
        ite_false, reduceIte, foldl_write_buffer, hnone]
      by_cases hz : exitCode ≠ 0
      · rw [if_pos hz, if_pos hz]
      · rw [if_neg hz, if_neg hz]
  rw [hout]
  have hPnull : c.stderr = OutCfg.null ∨ c.stderr = OutCfg.pipe →
      outSpawnCfg (if c.stderr = OutCfg.null then OutCfg.pipe else c.stderr) =
        SpawnIo.pipe := by
    rintro (h | h) <;> simp [h, outSpawnCfg]
  refine ⟨rfl, rfl, fun h => by simp [h], ?_, ?_, ?_, ?_⟩
  · constructor
    · rintro ⟨m, hm⟩ hz
      rw [if_neg (show ¬(exitCode ≠ 0) from fun hh => hh hz)] at hm
      exact absurd hm (by simp)
    · intro hz
      exact ⟨_, by rw [if_pos hz]⟩
  · intro m hm
    by_cases hz : exitCode ≠ 0
    · rw [if_pos hz] at hm
      injection hm with hm2
      exact ⟨_, hm2.symm⟩
    · rw [if_neg hz] at hm
      exact absurd hm (by simp)
  · intro m hm hse hE
    have hPE := hPnull hse
    by_cases hz : exitCode ≠ 0
    · rw [if_pos hz] at hm
      have hgt : errCh.flatten.length > 0 := List.length_pos.mpr hE
      simp only [if_pos hPE, Option.isSome_some, reduceIte, if_pos hgt] at hm
      injection hm with hm2
      refine ⟨strBytes "command exited with status " ++ strBytes (toString exitCode) ++
        strBytes "stderr output:\n", ?_⟩
      rw [hm2.symm]
      simp [List.append_assoc]
    · rw [if_neg hz] at hm
      exact absurd hm (by simp)
  · intro hz
    rw [if_neg (show ¬(exitCode ≠ 0) from fun hh => hh hz)]

/-- Witness for C5: an encoding-requesting output of a process that exits 3 with
stderr byte 98 captured; the failure message embeds the code and ends in the stderr. -/
theorem c5_output_capture_witness :
    (Cmd.mk0 "x" []).running = false ∧ envOkW.spawnOk = true ∧
      (((Cmd.mk0 "x" []).output envOkW (some "utf8") [[104, 105]] [[98]] 3).1.running =
          true
        ∧ ((Cmd.mk0 "x" []).output envOkW (some "utf8") [[104, 105]] [[98]]
            3).1.stdout = OutCfg.pipe
        ∧ ((Cmd.mk0 "x" []).stderr = OutCfg.null →
            ((Cmd.mk0 "x" []).output envOkW (some "utf8") [[104, 105]] [[98]]
              3).1.stderr = OutCfg.pipe)
        ∧ ((∃ m, ((Cmd.mk0 "x" []).output envOkW (some "utf8") [[104, 105]] [[98]]
              3).2 = .failed m) ↔ (3 : Int) ≠ 0)
        ∧ (∀ m, ((Cmd.mk0 "x" []).output envOkW (some "utf8") [[104, 105]] [[98]]
              3).2 = .failed m →
            ∃ post, m = strBytes "command exited with status " ++
              strBytes (toString (3 : Int)) ++ post)
        ∧ (∀ m, ((Cmd.mk0 "x" []).output envOkW (some "utf8") [[104, 105]] [[98]]
              3).2 = .failed m →
            ((Cmd.mk0 "x" []).stderr = OutCfg.null ∨
              (Cmd.mk0 "x" []).stderr = OutCfg.pipe) →
            ([[98]] : List (List Byte)).flatten ≠ [] →
            ∃ pre, m = pre ++ ([[98]] : List (List Byte)).flatten)
        ∧ ((3 : Int) = 0 → ((Cmd.mk0 "x" []).output envOkW (some "utf8") [[104, 105]]
            [[98]] 3).2 =
            .ok (match (some "utf8" : Option String) with
              | some _ => OutVal.text ([[104, 105]] : List (List Byte)).flatten
              | none => OutVal.bytes ([[104, 105]] : List (List Byte)).flatten))) :=
  ⟨rfl, rfl,
    c5_output_capture (Cmd.mk0 "x" []) envOkW (some "utf8") [[104, 105]] [[98]] 3
      rfl rfl⟩

end NodeExec
